import Mathlib

/-!
# Restaurant backend: order lifecycle and analytics

A shallow embedding of the request handlers of the restaurant-ordering backend
(`controllers/orderController.js`, `routes/analyticsRoutes.js`, `routes/menuItemRoutes.js`,
`routes/resturantRoutes.js`) together with the properties stated about them.

The document store is a record of lists, one per collection.  A handler is a
function from the store and the request to a response (and, for handlers that
write, the new store).  A store call that rejects is an explicit input: the
`Faults` record says which calls throw, and the handler's `catch` turns a throw
into the generic 500 response.
-/

namespace RestaurantBackend

/-! ## Values and documents -/

/-- Document identifiers (`ObjectId`). -/
abbrev ObjectId := Nat

/-- A value read from a request: route parameters are always `str`, body fields can be
anything JSON carries, or absent (`undefined`).  `compound` stands for arrays and objects,
which are never strictly equal to a string. -/
inductive JValue where
  | undefined
  | null
  | bool (b : Bool)
  | num (n : Int)
  | str (s : String)
  | compound
  deriving DecidableEq

/-- One line of an order: a menu-item reference and a quantity. -/
structure OrderItem where
  menuItem : ObjectId
  quantity : Int
  deriving DecidableEq

/-- An order document.  Dates are milliseconds on the local time line; `createdAt` and
`estimatedDeliveryTime` may be absent from a document, and so may the `user` reference. -/
structure Order where
  _id : ObjectId
  user : Option ObjectId
  restaurant : ObjectId
  items : List OrderItem
  discount : ℚ
  finalTotal : ℚ
  orderStatus : String
  createdAt : Option Int
  estimatedDeliveryTime : Option Int
  deriving DecidableEq

/-- The `relatedEntity` sub-document of a notification. -/
structure RelatedEntity where
  entityType : String
  entityId : ObjectId
  deriving DecidableEq

/-- A notification document. -/
structure Notification where
  recipient : ObjectId
  type : String
  title : String
  message : String
  relatedEntity : RelatedEntity
  deriving DecidableEq

/-- A user document (the fields the handlers read). -/
structure User where
  _id : ObjectId
  role : String
  deriving DecidableEq

/-- A restaurant document: its identifier, its owner, and the fields that the update route
assigns.  A field holds the value as it was supplied; `undefined` is an absent field. -/
structure Restaurant where
  _id : ObjectId
  owner : ObjectId
  name : JValue
  description : JValue
  cuisine : JValue
  address : JValue
  contactNumber : JValue
  email : JValue
  operatingHours : JValue
  isActive : JValue
  rating : JValue
  profilePicture : JValue
  coverImage : JValue
  deriving DecidableEq

/-- A menu-item document (the fields the handlers read). -/
structure MenuItem where
  _id : ObjectId
  restaurant : ObjectId
  name : String
  deriving DecidableEq

/-- The five collections. -/
structure Store where
  users : List User
  restaurants : List Restaurant
  menuItems : List MenuItem
  orders : List Order
  notifications : List Notification
  deriving DecidableEq

/-- Which store calls of a handler reject.  `Faults.none` is the run in which every
store call resolves. -/
structure Faults where
  findById : Bool
  save : Bool
  create : Bool
  findOne : Bool
  find : Bool
  aggregate : Bool
  deleteOne : Bool
  deriving DecidableEq

/-- No store call rejects. -/
def Faults.none : Faults :=
  ⟨false, false, false, false, false, false, false⟩

/-- An HTTP response: `ok status body` is `res.status(status).json(body)` with a payload,
`fail status error` is `res.status(status).json({ error })` (the optional `message` field that
repeats the exception text is left out). -/
inductive Response (α : Type) where
  | ok (status : Nat) (body : α)
  | fail (status : Nat) (error : String)
  deriving DecidableEq

/-- The HTTP status of a response. -/
def Response.status {α : Type} : Response α → Nat
  | .ok s _ => s
  | .fail s _ => s

/-! ## Order lifecycle: `updateOrderStatus` -/

/-- The array `validStatuses` of `updateOrderStatus`. -/
def validStatuses : List String :=
  ["Placed", "Confirmed", "Preparing", "Out for Delivery", "Delivered", "Cancelled"]

/-- The request of `PATCH /:orderId/status`: the route parameter and `req.body.orderStatus`. -/
structure UpdateStatusRequest where
  orderId : String
  orderStatus : JValue

/-- `Order.findById(id)` on a cast identifier: the document with that `_id`. -/
def findOrderById (orders : List Order) (id : ObjectId) : Option Order :=
  orders.find? (fun o => decide (o._id = id))

/-- `order.save()`: the stored document with the order's `_id` is replaced by the order. -/
def saveOrder (o : Order) : List Order → List Order
  | [] => []
  | x :: xs => if x._id = o._id then o :: xs else x :: saveOrder o xs

/-- The document passed to `Notification.create` by `updateOrderStatus`. -/
def statusNotification (recipient : ObjectId) (orderId : String) (orderStatus : String)
    (entityId : ObjectId) : Notification where
  recipient := recipient
  type := orderStatus
  title := "Your order is now " ++ orderStatus
  message := "Order #" ++ orderId ++ " status has been updated to \"" ++ orderStatus ++ "\"."
  relatedEntity := ⟨"Order", entityId⟩

/-- The generic response of the `catch` block of `updateOrderStatus`. -/
def updateFailed : Response String := .fail 500 "Failed to update order status"

/-- The handler `updateOrderStatus`.  `castId` is the driver's reading of a request value as
an `ObjectId` (`none` when the value is not a valid identifier); a route parameter that does
not cast makes `findById` reject. -/
def updateOrderStatus (castId : JValue → Option ObjectId) (env : Faults) (st : Store)
    (req : UpdateStatusRequest) : Response String × Store :=
  match req.orderStatus with
  | .str orderStatus =>
    if validStatuses.contains orderStatus then
      match castId (.str req.orderId) with
      | Option.none => (updateFailed, st)
      | some id =>
        if env.findById then (updateFailed, st)
        else
          match findOrderById st.orders id with
          | Option.none => (.fail 404 "Order not found", st)
          | some found =>
            let order : Order := { found with orderStatus := orderStatus }
            if env.save then (updateFailed, st)
            else
              let st1 : Store := { st with orders := saveOrder order st.orders }
              match order.user with
              | some user =>
                if env.create then (updateFailed, st1)
                else
                  (.ok 200 "Order status updated and customer notified",
                    { st1 with notifications := st1.notifications ++
                        [statusNotification user req.orderId orderStatus order._id] })
              | Option.none => (.ok 200 "Order status updated and customer notified", st1)
    else (.fail 400 "Invalid order status", st)
  | _ => (.fail 400 "Invalid order status", st)

/-- A sequence of `updateOrderStatus` calls, each with its own faults, threading the store. -/
def runUpdates (castId : JValue → Option ObjectId) (st : Store) :
    List (Faults × UpdateStatusRequest) → Store
  | [] => st
  | (env, req) :: rest => runUpdates castId (updateOrderStatus castId env st req).2 rest

/-- The title of a notification contains a token: the token is a contiguous part of it. -/
def titleContains (n : Notification) (token : String) : Prop :=
  ∃ before after : String, n.title = before ++ token ++ after


/-! ## Dates

The time-value arithmetic of the language's `Date` object.  A time value is a number of
milliseconds since the epoch, in UTC; the local-time methods shift it by the zone offset
`tza`, which is taken constant (a zone without daylight-saving changes).  Time values stay
inside the representable range, so `TimeClip` is the identity and is left out. -/

/-- Milliseconds in a day. -/
def msPerDay : Int := 86400000

/-- `Day(t)`: the day number of a time value. -/
def Day (t : Int) : Int := t / msPerDay

/-- `TimeWithinDay(t)`. -/
def TimeWithinDay (t : Int) : Int := t % msPerDay

/-- `DaysInYear(y)`. -/
def DaysInYear (y : Int) : Int :=
  if y % 4 ≠ 0 then 365 else if y % 100 ≠ 0 then 366 else if y % 400 ≠ 0 then 365 else 366

/-- `DayFromYear(y)`: the day number of the first day of year `y`. -/
def DayFromYear (y : Int) : Int :=
  365 * (y - 1970) + (y - 1969) / 4 - (y - 1901) / 100 + (y - 1601) / 400

/-- The largest year whose first day is not after day `d`: an estimate from the mean year
length, corrected by at most one year either way. -/
def YearFromDay (d : Int) : Int :=
  let y := 1970 + (400 * d) / 146097
  if DayFromYear (y + 1) ≤ d then y + 1 else if DayFromYear y ≤ d then y else y - 1

/-- `YearFromTime(t)`. -/
def YearFromTime (t : Int) : Int := YearFromDay (Day t)

/-- `InLeapYear(t)` for a year: 1 in a leap year, 0 otherwise. -/
def leapOfYear (y : Int) : Int := if DaysInYear y = 366 then 1 else 0

/-- `InLeapYear(t)`. -/
def InLeapYear (t : Int) : Int := leapOfYear (YearFromTime t)

/-- `DayWithinYear(t)`. -/
def DayWithinYear (t : Int) : Int := Day t - DayFromYear (YearFromTime t)

/-- The month (0 = January) of the day `dwy` of a year with leap flag `leap`. -/
def monthOfDayWithinYear (dwy leap : Int) : Int :=
  if dwy < 31 then 0
  else if dwy < 59 + leap then 1
  else if dwy < 90 + leap then 2
  else if dwy < 120 + leap then 3
  else if dwy < 151 + leap then 4
  else if dwy < 181 + leap then 5
  else if dwy < 212 + leap then 6
  else if dwy < 243 + leap then 7
  else if dwy < 273 + leap then 8
  else if dwy < 304 + leap then 9
  else if dwy < 334 + leap then 10
  else 11

/-- `MonthFromTime(t)`. -/
def MonthFromTime (t : Int) : Int := monthOfDayWithinYear (DayWithinYear t) (InLeapYear t)

/-- The number of days of a year that precede month `m` (0 = January). -/
def daysBeforeMonth (m leap : Int) : Int :=
  if m = 0 then 0
  else if m = 1 then 31
  else if m = 2 then 59 + leap
  else if m = 3 then 90 + leap
  else if m = 4 then 120 + leap
  else if m = 5 then 151 + leap
  else if m = 6 then 181 + leap
  else if m = 7 then 212 + leap
  else if m = 8 then 243 + leap
  else if m = 9 then 273 + leap
  else if m = 10 then 304 + leap
  else 334 + leap

/-- `DateFromTime(t)`: the day of the month, from 1. -/
def DateFromTime (t : Int) : Int :=
  DayWithinYear t - daysBeforeMonth (MonthFromTime t) (InLeapYear t) + 1

/-- `WeekDay(t)`: 0 = Sunday, 1 = Monday, ..., 6 = Saturday. -/
def WeekDay (t : Int) : Int := (Day t + 4) % 7

/-- `MakeTime(hour, min, sec, ms)`. -/
def MakeTime (hour min sec ms : Int) : Int :=
  hour * 3600000 + min * 60000 + sec * 1000 + ms

/-- `MakeDay(year, month, date)`: months outside 0..11 carry into the year, dates outside the
month carry into the neighbouring months. -/
def MakeDay (year month date : Int) : Int :=
  let ym := year + month / 12
  let mn := month % 12
  DayFromYear ym + daysBeforeMonth mn (leapOfYear ym) + date - 1

/-- `MakeDate(day, time)`. -/
def MakeDate (day time : Int) : Int := day * msPerDay + time

/-- `LocalTime(t)` in a zone of constant offset `tza`. -/
def LocalTime (tza t : Int) : Int := t + tza

/-- `UTC(t)` in a zone of constant offset `tza`. -/
def UTC (tza t : Int) : Int := t - tza

/-- `Date.prototype.setHours(hour, min, sec, ms)`: the new time value. -/
def setHours (tza t hour min sec ms : Int) : Int :=
  UTC tza (MakeDate (Day (LocalTime tza t)) (MakeTime hour min sec ms))

/-- `Date.prototype.getDay()`. -/
def getDay (tza t : Int) : Int := WeekDay (LocalTime tza t)

/-- `Date.prototype.getDate()`. -/
def getDate (tza t : Int) : Int := DateFromTime (LocalTime tza t)

/-- `Date.prototype.setDate(date)`: the new time value. -/
def setDate (tza t date : Int) : Int :=
  UTC tza (MakeDate (MakeDay (YearFromTime (LocalTime tza t)) (MonthFromTime (LocalTime tza t))
    date) (TimeWithinDay (LocalTime tza t)))

/-- The clock values returned by the successive `new Date()` of `calculateDateRange`: the one
bound to `now`, the one that becomes `endDate` and the one that becomes `startDate`. -/
structure ClockReads where
  now : Int
  endDate : Int
  startDate : Int

/-- The result object of `calculateDateRange`. -/
inductive DateRange where
  | success (startDate endDate : Int)
  | failure (error : String)
  deriving DecidableEq

/-- The `success` field of the result of `calculateDateRange`. -/
def DateRange.isSuccess : DateRange → Bool
  | .success _ _ => true
  | .failure _ => false

/-- The error text of the `default` branch of `calculateDateRange`. -/
def invalidPeriod : String := "Invalid period. Use \"day\", \"week\", or \"month\"."

/-- The helper `calculateDateRange(period)`.  Nothing in its `try` block throws, so the
`catch` branch is not reachable and has no counterpart here. -/
def calculateDateRange (tza : Int) (clock : ClockReads) (period : JValue) : DateRange :=
  let endDate := setHours tza clock.endDate 23 59 59 999
  match period with
  | .str p =>
    if p = "day" then
      .success (setHours tza clock.startDate 0 0 0 0) endDate
    else if p = "week" then
      let startDate := setHours tza clock.startDate 0 0 0 0
      let dayOfWeek := getDay tza startDate
      let diff := if dayOfWeek = 0 then 6 else dayOfWeek - 1
      .success (setDate tza startDate (getDate tza startDate - diff)) endDate
    else if p = "month" then
      let startDate := setDate tza clock.startDate 1
      .success (setHours tza startDate 0 0 0 0) endDate
    else .failure invalidPeriod
  | _ => .failure invalidPeriod

/-! ## Analytics: the sales report -/

/-- A number produced by the language's division: a finite value, `NaN`, or an infinity. -/
inductive JsNumber where
  | finite (q : ℚ)
  | nan
  | infinity (negative : Bool)
  deriving DecidableEq

/-- Division of two finite numbers: `0 / 0` is `NaN`, `x / 0` is an infinity of the sign
of `x`. -/
def jsDivide (a b : ℚ) : JsNumber :=
  if b = 0 then (if a = 0 then .nan else .infinity (decide (a < 0))) else .finite (a / b)

/-- The body of `POST /sales-report`. -/
structure SalesReportRequest where
  restaurantId : JValue
  period : JValue

/-- The condition `{ $gte: startDate, $lte: endDate }` on a date field: a missing field does
not match. -/
def inWindow (startDate endDate : Int) : Option Int → Bool
  | some t => decide (startDate ≤ t) && decide (t ≤ endDate)
  | Option.none => false

/-- The `$match` stage of the sales report. -/
def salesMatch (restaurantId : ObjectId) (startDate endDate : Int) (o : Order) : Bool :=
  decide (o.restaurant = restaurantId) &&
    (inWindow startDate endDate o.estimatedDeliveryTime ||
      inWindow startDate endDate o.createdAt)

/-- The document produced by the `$group` stage of the sales report (`_id` is `null`). -/
structure SalesGroup where
  totalSales : ℚ
  totalOrders : Nat
  totalItems : Nat
  totalDiscounts : ℚ
  orders : List Order
  deriving DecidableEq

/-- The `$group` stage with `_id: null`: one document when at least one document comes in,
none otherwise. -/
def groupSales (docs : List Order) : List SalesGroup :=
  match docs with
  | [] => []
  | _ :: _ =>
    [{ totalSales := (docs.map (fun o => o.finalTotal)).sum
       totalOrders := (docs.map (fun _ => 1)).sum
       totalItems := (docs.map (fun o => o.items.length)).sum
       totalDiscounts := (docs.map (fun o => o.discount)).sum
       orders := docs }]

/-- The aggregation `Order.aggregate([{ $match }, { $group }])` of the sales report. -/
def salesAggregate (orders : List Order) (restaurantId : ObjectId) (startDate endDate : Int) :
    List SalesGroup :=
  groupSales (orders.filter (salesMatch restaurantId startDate endDate))

/-- The report object sent by `POST /sales-report`; `orders` is absent when nothing matched. -/
structure SalesReport where
  totalSales : ℚ
  totalOrders : Nat
  totalItems : Nat
  totalDiscounts : ℚ
  orders : Option (List Order)
  averageOrderValue : JsNumber
  startDate : Int
  endDate : Int
  deriving DecidableEq

/-- The `report` expression of the handler. -/
def buildReport (groups : List SalesGroup) (startDate endDate : Int) : SalesReport :=
  match groups with
  | g :: _ =>
    { totalSales := g.totalSales
      totalOrders := g.totalOrders
      totalItems := g.totalItems
      totalDiscounts := g.totalDiscounts
      orders := some g.orders
      averageOrderValue := jsDivide g.totalSales g.totalOrders
      startDate := startDate
      endDate := endDate }
  | [] =>
    { totalSales := 0
      totalOrders := 0
      totalItems := 0
      totalDiscounts := 0
      orders := Option.none
      averageOrderValue := .finite 0
      startDate := startDate
      endDate := endDate }

/-- `Restaurant.findOne({ _id, owner })`. -/
def findOwnedRestaurant (restaurants : List Restaurant) (id owner : ObjectId) :
    Option Restaurant :=
  restaurants.find? (fun r => decide (r._id = id) && decide (r.owner = owner))

/-- The handler of `POST /sales-report`, after `verifyRestaurantOwner` has set `req.ownerId`.
`ObjectId.isValid` holds exactly of the values that `castId` reads as an identifier. -/
def salesReport (castId : JValue → Option ObjectId) (tza : Int) (clock : ClockReads)
    (env : Faults) (st : Store) (ownerId : ObjectId) (req : SalesReportRequest) :
    Response SalesReport :=
  match castId req.restaurantId with
  | Option.none => .fail 400 "Invalid restaurant ID format"
  | some restaurantId =>
    if env.findOne then .fail 500 "Failed to generate sales report"
    else
      match findOwnedRestaurant st.restaurants restaurantId ownerId with
      | Option.none => .fail 404 "Restaurant not found or unauthorized access"
      | some _ =>
        match calculateDateRange tza clock req.period with
        | .failure error => .fail 400 error
        | .success startDate endDate =>
          if env.find then .fail 500 "Failed to generate sales report"
          else if env.aggregate then .fail 500 "Failed to generate sales report"
          else
            .ok 200 (buildReport (salesAggregate st.orders restaurantId startDate endDate)
              startDate endDate)

/-! ## Analytics: the words of the sales-report properties -/

/-- A date field lies in the window `[startDate, endDate]`, both ends included. -/
def liesInWindow (startDate endDate : Int) (d : Option Int) : Prop :=
  ∃ t, d = some t ∧ startDate ≤ t ∧ t ≤ endDate

/-- The periods accepted by the sales report. -/
def isPeriodToken (period : JValue) : Prop :=
  period = .str "day" ∨ period = .str "week" ∨ period = .str "month"

/-- The restaurant id of the request names a restaurant of the store owned by the caller. -/
def namesOwnedRestaurant (castId : JValue → Option ObjectId) (st : Store) (ownerId : ObjectId)
    (restaurantId : JValue) : Prop :=
  ∃ r, r ∈ st.restaurants ∧ castId restaurantId = some r._id ∧ r.owner = ownerId

/-! ## Analytics: popular items -/

/-- A document of the popular-items result: `_id` is the menu-item name. -/
structure PopularItem where
  _id : String
  totalSold : Int
  deriving DecidableEq

/-- The documents after `$match`, `$unwind: '$items'`, `$lookup` and
`$unwind: '$menuItemDetails'`: one per order item of an order of the restaurant and menu item
with the referenced `_id`, in order.  An item whose menu item is not in the collection
yields no document. -/
def joinedItems (orders : List Order) (menuItems : List MenuItem) (restaurantId : ObjectId) :
    List (OrderItem × MenuItem) :=
  ((orders.filter (fun o => decide (o.restaurant = restaurantId))).flatMap
    (fun o => o.items)).flatMap
    (fun item => (menuItems.filter (fun m => decide (m._id = item.menuItem))).map
      (fun m => (item, m)))

/-- One step of the `$group` stage: the quantity is added to the group of the name, which is
created at the end when it does not exist yet. -/
def addToGroup (name : String) (quantity : Int) : List PopularItem → List PopularItem
  | [] => [⟨name, quantity⟩]
  | g :: gs =>
    if g._id = name then ⟨name, g.totalSold + quantity⟩ :: gs
    else g :: addToGroup name quantity gs

/-- The `$group` stage by `menuItemDetails.name`, summing `items.quantity`; groups come out in
the order in which their names first occur. -/
def groupByName (docs : List (OrderItem × MenuItem)) : List PopularItem :=
  docs.foldl (fun groups d => addToGroup d.2.name d.1.quantity groups) []

/-- The order of `{ $sort: { totalSold: -1 } }`. -/
def soldAtLeast (a b : PopularItem) : Prop := b.totalSold ≤ a.totalSold

instance : DecidableRel soldAtLeast := fun a b => Int.decLe b.totalSold a.totalSold

instance : IsTotal PopularItem soldAtLeast :=
  ⟨fun a b => Int.le_total b.totalSold a.totalSold⟩

instance : IsTrans PopularItem soldAtLeast :=
  ⟨fun _ _ _ hab hbc => Int.le_trans hbc hab⟩

/-- The aggregation pipeline of `POST /popular-items`. -/
def popularItemsPipeline (orders : List Order) (menuItems : List MenuItem)
    (restaurantId : ObjectId) : List PopularItem :=
  ((groupByName (joinedItems orders menuItems restaurantId)).insertionSort soldAtLeast).take 10

/-- The body of `POST /popular-items`. -/
structure PopularItemsRequest where
  restaurantId : JValue

/-- The handler of `POST /popular-items`, after `verifyRestaurantOwner`.  A `restaurantId`
that the `ObjectId` constructor rejects throws inside the `try` block. -/
def popularItems (castId : JValue → Option ObjectId) (env : Faults) (st : Store)
    (ownerId : ObjectId) (req : PopularItemsRequest) : Response (List PopularItem) :=
  match castId req.restaurantId with
  | Option.none => .fail 500 "Failed to fetch popular items"
  | some restaurantId =>
    if env.findOne then .fail 500 "Failed to fetch popular items"
    else
      match findOwnedRestaurant st.restaurants restaurantId ownerId with
      | Option.none => .fail 404 "Restaurant not found or unauthorized access."
      | some _ =>
        if env.aggregate then .fail 500 "Failed to fetch popular items"
        else .ok 200 (popularItemsPipeline st.orders st.menuItems restaurantId)

/-! ## Analytics: the words of the popular-items properties -/

/-- The quantity recorded under a name by a list of groups. -/
def soldIn (groups : List PopularItem) (name : String) : Int :=
  ((groups.filter (fun g => decide (g._id = name))).map (fun g => g.totalSold)).sum

/-- The sum of `items.quantity` over the joined documents whose menu item has the name. -/
def soldOf (docs : List (OrderItem × MenuItem)) (name : String) : Int :=
  ((docs.filter (fun d => decide (d.2.name = name))).map (fun d => d.1.quantity)).sum

/-- The sum of quantity over all order items, across all orders of the restaurant, whose menu
item has the name: an item counts when the menu-item collection holds a document with the
item's `menuItem` id and that name. -/
def quantitySold (orders : List Order) (menuItems : List MenuItem) (restaurantId : ObjectId)
    (name : String) : Int :=
  (((orders.filter (fun o => decide (o.restaurant = restaurantId))).flatMap
      (fun o => o.items)).map
    (fun item =>
      if menuItems.any (fun m => decide (m._id = item.menuItem) && decide (m.name = name))
      then item.quantity else 0)).sum

/-! ## Identity and role check: `verifyRestaurantOwner` -/

/-- `header.split(' ')` on the characters of a header; `word` holds the characters of the
current field, last first. -/
def splitSpaces : List Char → List Char → List (List Char)
  | word, [] => [word.reverse]
  | word, c :: cs =>
    if c = ' ' then word.reverse :: splitSpaces [] cs else splitSpaces (c :: word) cs

/-- The expression `req.headers.authorization?.split(' ')[1]`: the second field of the header,
`none` when the header is absent or has a single field. -/
def headerToken (authorization : Option String) : Option String :=
  match authorization with
  | Option.none => Option.none
  | some header => ((splitSpaces [] header.toList)[1]?).map String.mk

/-- `User.findById(id)` on a cast identifier. -/
def findUserById (users : List User) (id : ObjectId) : Option User :=
  users.find? (fun u => decide (u._id = id))

/-- What the middleware does with a request: it answers itself, or it sets `req.ownerId` and
calls `next()`, which runs the handler. -/
inductive AuthOutcome where
  | rejected (status : Nat) (error : String)
  | next (ownerId : JValue)
  deriving DecidableEq

/-- The error text of the 401 answer. -/
def noTokenProvided : String := "Access denied. No token provided."

/-- The error text of the 403 answer. -/
def ownersOnly : String :=
  "Access denied. Only restaurant owners can access this resource."

/-- The middleware `verifyRestaurantOwner`.  `jwtVerify` is the token library: the `id` of the
decoded payload, `none` when verification throws.  `catchError` is the body of the `catch`
block, which differs between the route files (`'Invalid token.'` in `menuItemRoutes.js`, the
caught error in `analyticsRoutes.js`).  A subject that does not cast makes `findById`
reject, inside the same `try`. -/
def verifyRestaurantOwner (catchError : String) (jwtVerify : String → Option JValue)
    (castId : JValue → Option ObjectId) (env : Faults) (users : List User)
    (authorization : Option String) : AuthOutcome :=
  match headerToken authorization with
  | Option.none => .rejected 401 noTokenProvided
  | some token =>
    if token = "" then .rejected 401 noTokenProvided
    else
      match jwtVerify token with
      | Option.none => .rejected 400 catchError
      | some ownerId =>
        match castId ownerId with
        | Option.none => .rejected 400 catchError
        | some id =>
          if env.findById then .rejected 400 catchError
          else
            match findUserById users id with
            | Option.none => .rejected 404 "User not found."
            | some user =>
              if user.role ≠ "restaurant" then .rejected 403 ownersOnly
              else .next ownerId

/-! ## Order lifecycle: `getOrders` -/

/-- An order of the listing, with the documents that `populate` puts in place of its `user`
and `restaurant` references (`none` when the reference resolves to nothing). -/
structure ListedOrder where
  order : Order
  user : Option User
  restaurant : Option Restaurant
  deriving DecidableEq

/-- The two `populate` calls of `getOrders` on one order. -/
def populateOrder (st : Store) (o : Order) : ListedOrder where
  order := o
  user := o.user.bind (findUserById st.users)
  restaurant := st.restaurants.find? (fun r => decide (r._id = o.restaurant))

/-- The order of `sort({ createdAt: -1 })` on the sort keys: latest first, a missing date
last. -/
def sortsNoLater : Option Int → Option Int → Bool
  | _, Option.none => true
  | Option.none, some _ => false
  | some a, some b => decide (b ≤ a)

/-- The order of `sort({ createdAt: -1 })` on listed orders. -/
def createdNoEarlier (a b : ListedOrder) : Prop :=
  sortsNoLater a.order.createdAt b.order.createdAt = true

instance : DecidableRel createdNoEarlier :=
  fun a b => instDecidableEqBool (sortsNoLater a.order.createdAt b.order.createdAt) true

/-- The generic response of the `catch` block of `getOrders`. -/
def fetchFailed : Response (List ListedOrder) := .fail 500 "Failed to fetch orders"

/-- The handler `getOrders`: the identity and role check is written out in the handler, and
every throw, the token's included, ends in the handler's own `catch`. -/
def getOrders (jwtVerify : String → Option JValue) (castId : JValue → Option ObjectId)
    (env : Faults) (st : Store) (authorization : Option String) :
    Response (List ListedOrder) :=
  match headerToken authorization with
  | Option.none => .fail 401 noTokenProvided
  | some token =>
    if token = "" then .fail 401 noTokenProvided
    else
      match jwtVerify token with
      | Option.none => fetchFailed
      | some ownerId =>
        match castId ownerId with
        | Option.none => fetchFailed
        | some id =>
          if env.findById then fetchFailed
          else
            match findUserById st.users id with
            | Option.none => .fail 404 "User not found."
            | some user =>
              if user.role ≠ "restaurant" then .fail 403 ownersOnly
              else if env.find then fetchFailed
              else
                let restaurants := st.restaurants.filter (fun r => decide (r.owner = id))
                if restaurants.length = 0 then
                  .fail 404 "No restaurants found for this owner."
                else
                  let restaurantIds := restaurants.map (fun r => r._id)
                  let orders := st.orders.filter (fun o => restaurantIds.contains o.restaurant)
                  .ok 200 ((orders.map (populateOrder st)).insertionSort createdNoEarlier)

/-! ## Analytics: export -/

/-- The body of `POST /export-data`. -/
structure ExportRequest where
  restaurantId : JValue
  format : JValue

/-- An order item after `populate('items.menuItem')`: the reference is replaced by the
menu-item document, or by `null` when no document has that `_id`. -/
structure PopulatedItem where
  quantity : Int
  menuItem : Option MenuItem
  deriving DecidableEq

/-- An order after `populate('items.menuItem')`. -/
structure PopulatedOrder where
  order : Order
  items : List PopulatedItem
  deriving DecidableEq

/-- `populate('items.menuItem')` on one order. -/
def populateItems (menuItems : List MenuItem) (o : Order) : PopulatedOrder where
  order := o
  items := o.items.map (fun item =>
    ⟨item.quantity, menuItems.find? (fun m => decide (m._id = item.menuItem))⟩)

/-- One object of `csvData`. -/
structure CsvRow where
  orderId : ObjectId
  totalAmount : ℚ
  items : String
  deriving DecidableEq

/-- The template `item.menuItem.name (xitem.quantity)` of the csv branch; reading `name` of
a `null` menu item throws, which is `none` here. -/
def itemSummary (item : PopulatedItem) : Option String :=
  match item.menuItem with
  | some m => some (m.name ++ " (x" ++ toString item.quantity ++ ")")
  | Option.none => Option.none

/-- The callback of `orders.map` in the csv branch; `none` when an item summary throws. -/
def csvRow (o : PopulatedOrder) : Option CsvRow :=
  match o.items.mapM itemSummary with
  | some parts => some ⟨o.order._id, o.order.finalTotal, ", ".intercalate parts⟩
  | Option.none => Option.none

/-- What `POST /export-data` sends: the rows handed to the csv serializer, or the populated
orders as JSON. -/
inductive ExportBody where
  | csv (rows : List CsvRow)
  | json (orders : List PopulatedOrder)
  deriving DecidableEq

/-- The error text of the format check. -/
def invalidFormat : String := "Invalid format. Must be \"csv\" or \"json\"."

/-- The generic response of the `catch` block of the export handler. -/
def exportFailed : Response ExportBody := .fail 500 "Failed to export data"

/-- The handler of `POST /export-data`, after `verifyRestaurantOwner`. -/
def exportData (castId : JValue → Option ObjectId) (env : Faults) (st : Store)
    (ownerId : ObjectId) (req : ExportRequest) : Response ExportBody :=
  match req.format with
  | .str format =>
    if format = "csv" ∨ format = "json" then
      match castId req.restaurantId with
      | Option.none => exportFailed
      | some restaurantId =>
        if env.findOne then exportFailed
        else
          match findOwnedRestaurant st.restaurants restaurantId ownerId with
          | Option.none => .fail 404 "Restaurant not found or unauthorized access."
          | some _ =>
            if env.find then exportFailed
            else
              let orders :=
                (st.orders.filter (fun o => decide (o.restaurant = restaurantId))).map
                  (populateItems st.menuItems)
              if format = "csv" then
                match orders.mapM csvRow with
                | some rows => .ok 200 (.csv rows)
                | Option.none => exportFailed
              else .ok 200 (.json orders)
    else .fail 400 invalidFormat
  | _ => .fail 400 invalidFormat

/-! ## Menu items -/

/-- The body of the menu-item routes: the keys that the handlers' documents carry here.
`undefined` is an absent key. -/
structure MenuItemBody where
  restaurant : JValue
  name : JValue

/-- `MenuItem.findById(id)` on a cast identifier. -/
def findMenuItemById (menuItems : List MenuItem) (id : ObjectId) : Option MenuItem :=
  menuItems.find? (fun m => decide (m._id = id))

/-- `menuItem.save()` of a stored document: the document with its `_id` is replaced. -/
def saveMenuItem (item : MenuItem) : List MenuItem → List MenuItem
  | [] => []
  | x :: xs => if x._id = item._id then item :: xs else x :: saveMenuItem item xs

/-- The 403 text of the menu-item routes. -/
def notYourRestaurant : String := "Access denied. This restaurant does not belong to you."

/-- The handler of `POST /:restaurantId/menu-items`, after `verifyRestaurantOwner`.  The
document is built as `{ restaurant: restaurantId, ...req.body }`: a `restaurant` key of the
body replaces the route parameter.  `castName` is the schema's cast of the `name` path;
a value that does not cast makes `save` reject.  `freshId` is the `_id` given to the new
document. -/
def addMenuItem (castId : JValue → Option ObjectId) (castName : JValue → Option String)
    (env : Faults) (st : Store) (ownerId : ObjectId) (restaurantId : String)
    (body : MenuItemBody) (freshId : ObjectId) : Response MenuItem × Store :=
  match castId (.str restaurantId) with
  | Option.none => (.fail 500 "Failed to add menu item.", st)
  | some id =>
    if env.findOne then (.fail 500 "Failed to add menu item.", st)
    else
      match findOwnedRestaurant st.restaurants id ownerId with
      | Option.none => (.fail 403 notYourRestaurant, st)
      | some _ =>
        let restaurant := if body.restaurant = .undefined then .str restaurantId
          else body.restaurant
        match castId restaurant, castName body.name with
        | some r, some n =>
          if env.save then (.fail 500 "Failed to add menu item.", st)
          else
            (.ok 201 ⟨freshId, r, n⟩,
              { st with menuItems := st.menuItems ++ [⟨freshId, r, n⟩] })
        | _, _ => (.fail 500 "Failed to add menu item.", st)

/-- The handler of `PUT /menu-items/:menuItemId`, after `verifyRestaurantOwner`.  `idText` is
`ObjectId.prototype.toString`; `ownerId` is `req.ownerId` as the middleware left it.  A
menu item whose restaurant does not exist is populated with `null`, and reading its `owner`
throws.  `Object.assign(menuItem, req.body)` assigns every key of the body. -/
def updateMenuItem (castId : JValue → Option ObjectId) (castName : JValue → Option String)
    (idText : ObjectId → String) (env : Faults) (st : Store) (ownerId : JValue)
    (menuItemId : String) (body : MenuItemBody) : Response MenuItem × Store :=
  match castId (.str menuItemId) with
  | Option.none => (.fail 500 "Failed to update menu item.", st)
  | some id =>
    if env.findById then (.fail 500 "Failed to update menu item.", st)
    else
      match findMenuItemById st.menuItems id with
      | Option.none => (.fail 404 "Menu item not found.", st)
      | some menuItem =>
        match st.restaurants.find? (fun r => decide (r._id = menuItem.restaurant)) with
        | Option.none => (.fail 500 "Failed to update menu item.", st)
        | some restaurant =>
          if JValue.str (idText restaurant.owner) ≠ ownerId then
            (.fail 403 notYourRestaurant, st)
          else
            let newRestaurant := if body.restaurant = .undefined then some menuItem.restaurant
              else castId body.restaurant
            let newName := if body.name = .undefined then some menuItem.name
              else castName body.name
            match newRestaurant, newName with
            | some r, some n =>
              if env.save then (.fail 500 "Failed to update menu item.", st)
              else
                (.ok 200 ⟨menuItem._id, r, n⟩,
                  { st with menuItems := saveMenuItem ⟨menuItem._id, r, n⟩ st.menuItems })
            | _, _ => (.fail 500 "Failed to update menu item.", st)

/-! ## Restaurants: update and delete -/

/-- The keys that `PUT /:restaurantId` reads from the body; `undefined` is an absent key. -/
structure RestaurantBody where
  name : JValue
  description : JValue
  cuisine : JValue
  address : JValue
  contactNumber : JValue
  email : JValue
  operatingHours : JValue
  isActive : JValue
  rating : JValue
  profilePicture : JValue
  coverImage : JValue

/-- The language's conversion of a value to a boolean: `undefined`, `null`, `false`, `0` and
the empty string are falsy. -/
def JValue.truthy : JValue → Bool
  | .undefined => false
  | .null => false
  | .bool b => b
  | .num n => decide (n ≠ 0)
  | .str s => decide (s ≠ "")
  | .compound => true

/-- The expression `supplied || previous`. -/
def orPrevious (supplied previous : JValue) : JValue :=
  if supplied.truthy then supplied else previous

/-- `Restaurant.findById(id)` on a cast identifier. -/
def findRestaurantById (restaurants : List Restaurant) (id : ObjectId) : Option Restaurant :=
  restaurants.find? (fun r => decide (r._id = id))

/-- `restaurant.save()`: the stored document with the restaurant's `_id` is replaced. -/
def saveRestaurant (r : Restaurant) : List Restaurant → List Restaurant
  | [] => []
  | x :: xs => if x._id = r._id then r :: xs else x :: saveRestaurant r xs

/-- `Restaurant.deleteOne({ _id })`: the document with that `_id` is removed. -/
def deleteRestaurantById (id : ObjectId) : List Restaurant → List Restaurant
  | [] => []
  | x :: xs => if x._id = id then xs else x :: deleteRestaurantById id xs

/-- The assignments of `PUT /:restaurantId` to the loaded document. -/
def assignRestaurant (r : Restaurant) (body : RestaurantBody) : Restaurant :=
  { r with
    name := orPrevious body.name r.name
    description := orPrevious body.description r.description
    cuisine := orPrevious body.cuisine r.cuisine
    address := orPrevious body.address r.address
    contactNumber := orPrevious body.contactNumber r.contactNumber
    email := orPrevious body.email r.email
    operatingHours := orPrevious body.operatingHours r.operatingHours
    isActive := if body.isActive ≠ .undefined then body.isActive else r.isActive
    rating := orPrevious body.rating r.rating
    profilePicture := orPrevious body.profilePicture r.profilePicture
    coverImage := orPrevious body.coverImage r.coverImage }

/-- The handler of `PUT /:restaurantId`, after `verifyRestaurantOwner`.  `idText` is
`ObjectId.prototype.toString`; `ownerId` is `req.ownerId` as the middleware left it. -/
def updateRestaurant (castId : JValue → Option ObjectId) (idText : ObjectId → String)
    (env : Faults) (st : Store) (ownerId : JValue) (restaurantId : String)
    (body : RestaurantBody) : Response Restaurant × Store :=
  match castId (.str restaurantId) with
  | Option.none => (.fail 500 "Failed to update restaurant", st)
  | some id =>
    if env.findById then (.fail 500 "Failed to update restaurant", st)
    else
      match findRestaurantById st.restaurants id with
      | Option.none => (.fail 404 "Restaurant not found", st)
      | some restaurant =>
        if JValue.str (idText restaurant.owner) ≠ ownerId then
          (.fail 403 "You do not own this restaurant", st)
        else if env.save then (.fail 500 "Failed to update restaurant", st)
        else
          (.ok 200 (assignRestaurant restaurant body),
            { st with
              restaurants := saveRestaurant (assignRestaurant restaurant body) st.restaurants })

/-- The handler of `DELETE /:restaurantId`, after `verifyRestaurantOwner`. -/
def deleteRestaurant (castId : JValue → Option ObjectId) (idText : ObjectId → String)
    (env : Faults) (st : Store) (ownerId : JValue) (restaurantId : String) :
    Response String × Store :=
  match castId (.str restaurantId) with
  | Option.none => (.fail 500 "Failed to delete restaurant", st)
  | some id =>
    if env.findById then (.fail 500 "Failed to delete restaurant", st)
    else
      match findRestaurantById st.restaurants id with
      | Option.none => (.fail 404 "Restaurant not found", st)
      | some restaurant =>
        if JValue.str (idText restaurant.owner) ≠ ownerId then
          (.fail 403 "You do not own this restaurant", st)
        else if env.deleteOne then (.fail 500 "Failed to delete restaurant", st)
        else
          (.ok 200 "Restaurant deleted successfully",
            { st with restaurants := deleteRestaurantById id st.restaurants })

/-! ## Order lifecycle: the words of the listing property -/

/-- The restaurant with identifier `restaurantId` is a restaurant of the store whose owner
is `owner`. -/
def ownedBy (restaurants : List Restaurant) (owner restaurantId : ObjectId) : Prop :=
  ∃ r, r ∈ restaurants ∧ r._id = restaurantId ∧ r.owner = owner

instance (restaurants : List Restaurant) (owner restaurantId : ObjectId) :
    Decidable (ownedBy restaurants owner restaurantId) :=
  inferInstanceAs
    (Decidable (∃ r, r ∈ restaurants ∧ r._id = restaurantId ∧ r.owner = owner))

/-! ## Analytics: the words of the export property -/

/-- The text of an order item in the csv export: the name of its menu item and its
quantity; the empty text stands for an item whose menu item is not in the collection. -/
def itemText (menuItems : List MenuItem) (item : OrderItem) : String :=
  match findMenuItemById menuItems item.menuItem with
  | some m => m.name ++ " (x" ++ toString item.quantity ++ ")"
  | Option.none => ""

/-- Every item of the order references a menu item of the collection. -/
def itemsResolve (menuItems : List MenuItem) (o : Order) : Prop :=
  ∀ item, item ∈ o.items → ∃ m, findMenuItemById menuItems item.menuItem = some m


/-- The name is the name of a menu item referenced by an item of an order of the
restaurant. -/
def isSoldName (orders : List Order) (menuItems : List MenuItem) (restaurantId : ObjectId)
    (name : String) : Prop :=
  ∃ o, o ∈ orders ∧ o.restaurant = restaurantId ∧
    ∃ item, item ∈ o.items ∧ ∃ m, m ∈ menuItems ∧ m._id = item.menuItem ∧ m.name = name

/-! ## Example data -/

/-- A cast of request values used by the examples: the texts `"o1"`, `"o2"` and `"r7"` name
documents 1, 2 and 7, every other value does not cast. -/
def exampleCast : JValue → Option ObjectId
  | .str s =>
    if s = "o1" then some 1 else if s = "o2" then some 2 else if s = "r7" then some 7
    else Option.none
  | _ => Option.none

/-- An order that references no user. -/
def anonymousOrder : Order :=
  ⟨1, Option.none, 7, [], 0, 10, "Placed", Option.none, Option.none⟩

/-- An order of user 5, already delivered. -/
def customerOrder : Order :=
  ⟨2, some 5, 7, [], 0, 10, "Delivered", Option.none, Option.none⟩

/-- A store holding the two example orders and no notification. -/
def exampleStore : Store :=
  ⟨[], [], [], [anonymousOrder, customerOrder], []⟩


/-- Restaurant 7, owned by user 9. -/
def exampleRestaurant : Restaurant :=
  ⟨7, 9, .str "Karachi Grill", .str "Grill and biryani", .str "Pakistani", .str "Saddar",
    .str "021-555", .str "grill@example.com", .compound, .bool true, .num 4, .undefined,
    .undefined⟩

/-- An order of restaurant 7 created inside 3 March 2024 (local), total 30. -/
def morningOrder : Order :=
  ⟨11, some 5, 7, [⟨21, 3⟩], 0, 30, "Delivered", some 1709443000000, Option.none⟩

/-- An order of restaurant 7 without `createdAt`, to be delivered inside 3 March 2024, total 20. -/
def eveningOrder : Order :=
  ⟨12, some 6, 7, [⟨21, 2⟩, ⟨22, 1⟩], 0, 20, "Placed", Option.none, some 1709480000000⟩

/-- An order of restaurant 7 from November 2023. -/
def oldOrder : Order :=
  ⟨13, some 5, 7, [⟨22, 1⟩], 5, 99, "Delivered", some 1700000000000, some 1700003600000⟩

/-- An order of another restaurant, created inside 3 March 2024. -/
def otherRestaurantOrder : Order :=
  ⟨14, some 6, 8, [⟨23, 1⟩], 0, 45, "Placed", some 1709443000000, Option.none⟩

/-- A store with restaurant 7 and the four orders. -/
def analyticsStore : Store :=
  ⟨[⟨9, "restaurant"⟩], [exampleRestaurant],
    [⟨21, 7, "Biryani"⟩, ⟨22, 7, "Naan"⟩, ⟨23, 8, "Biryani"⟩],
    [morningOrder, eveningOrder, oldOrder, otherRestaurantOrder], []⟩

/-- The clock of the examples: Sunday 3 March 2024, 10:30, five hours ahead of UTC. -/
def exampleClock : ClockReads := ⟨1709443800000, 1709443800001, 1709443800002⟩


/-- The token library of the examples: `tok9`, `tok4`, `tok5` and `tok3` are the valid tokens
of the subjects `u9`, `u4`, `u5` and `u3`. -/
def exampleVerify : String → Option JValue :=
  fun token =>
    if token = "tok9" then some (.str "u9")
    else if token = "tok4" then some (.str "u4")
    else if token = "tok5" then some (.str "u5")
    else if token = "tok3" then some (.str "u3")
    else Option.none

/-- The cast of the examples of the route files: `u3`, `u4`, `u5`, `u9` name users, `r7` and
`r8` restaurants, `m21` a menu item. -/
def routeCast : JValue → Option ObjectId
  | .str s =>
    if s = "u3" then some 3 else if s = "u4" then some 4 else if s = "u5" then some 5
    else if s = "u9" then some 9 else if s = "r7" then some 7 else if s = "r8" then some 8
    else if s = "m21" then some 21 else Option.none
  | _ => Option.none

/-- The text of the user identifiers of the examples. -/
def exampleIdText : ObjectId → String :=
  fun id => if id = 9 then "u9" else if id = 4 then "u4" else if id = 5 then "u5" else "u3"

/-- Restaurant 8, owned by user 4. -/
def otherRestaurant : Restaurant :=
  ⟨8, 4, .str "Lahore Tikka", .str "", .str "Pakistani", .str "Gulberg", .str "042-555",
    .str "tikka@example.com", .compound, .bool true, .num 5, .undefined, .undefined⟩

/-- A store with two owners (users 9 and 4), a customer (user 5), their restaurants 7 and 8,
three menu items and the four orders. -/
def ownerStore : Store :=
  ⟨[⟨9, "restaurant"⟩, ⟨4, "restaurant"⟩, ⟨5, "customer"⟩], [exampleRestaurant, otherRestaurant],
    [⟨21, 7, "Biryani"⟩, ⟨22, 7, "Naan"⟩, ⟨23, 8, "Biryani"⟩],
    [morningOrder, eveningOrder, oldOrder, otherRestaurantOrder], []⟩


/-- An order of restaurant 7 with an item whose menu item (99) is in no document of the
menu-item collection. -/
def danglingOrder : Order :=
  ⟨15, some 5, 7, [⟨21, 1⟩, ⟨99, 2⟩], 0, 12, "Placed", some 1709443000000, Option.none⟩

/-- The store `ownerStore` with the orders of restaurant 7 replaced by two orders, one of
which has an item without menu item. -/
def exportStore : Store :=
  { ownerStore with orders := [morningOrder, danglingOrder, otherRestaurantOrder] }


/-- The cast of the `name` path used by the examples: a text is kept, anything else does
not cast. -/
def exampleName : JValue → Option String
  | .str s => some s
  | _ => Option.none

/-- A body that supplies nothing. -/
def emptyRestaurantBody : RestaurantBody :=
  ⟨.undefined, .undefined, .undefined, .undefined, .undefined, .undefined, .undefined,
    .undefined, .undefined, .undefined, .undefined⟩

/-- A body that supplies a new name, the rating 0, an empty description and `isActive`
false. -/
def falsyBody : RestaurantBody :=
  { emptyRestaurantBody with
    name := .str "Grill House", description := .str "", rating := .num 0,
    isActive := .bool false }

/-! ## Lemmas on the order collection -/

theorem findOrderById_id (orders : List Order) (id : ObjectId) (found : Order)
    (h : findOrderById orders id = some found) : found._id = id := by
  have := List.find?_some h
  simpa using this

theorem findOrderById_saveOrder (o : Order) (orders : List Order) (found : Order)
    (h : findOrderById orders o._id = some found) :
    findOrderById (saveOrder o orders) o._id = some o := by
  induction orders with
  | nil => simp [findOrderById] at h
  | cons x xs ih =>
    unfold saveOrder
    by_cases hx : x._id = o._id
    · simp [hx, findOrderById]
    · simp only [hx, if_false]
      simp only [findOrderById, List.find?_cons, hx, decide_False] at h ⊢
      exact ih h

theorem findOrderById_saveOrder_ne (o : Order) (orders : List Order) (id : ObjectId)
    (h : o._id ≠ id) :
    findOrderById (saveOrder o orders) id = findOrderById orders id := by
  induction orders with
  | nil => rfl
  | cons x xs ih =>
    unfold saveOrder
    by_cases hx : x._id = o._id
    · have hxid : x._id ≠ id := by rw [hx]; exact h
      simp [hx, findOrderById, h, hxid]
    · simp only [hx, if_false]
      simp only [findOrderById, List.find?_cons] at ih ⊢
      rw [ih]

/-- The run of `updateOrderStatus` with a valid token on an existing order, when neither the
lookup nor the save rejects. -/
theorem updateOrderStatus_found (castId : JValue → Option ObjectId) (env : Faults) (st : Store)
    (req : UpdateStatusRequest) (token : String) (id : ObjectId) (o : Order)
    (htoken : token ∈ validStatuses) (hreq : req.orderStatus = .str token)
    (hcast : castId (.str req.orderId) = some id) (hfind : findOrderById st.orders id = some o)
    (h1 : env.findById = false) (h2 : env.save = false) :
    updateOrderStatus castId env st req =
      match o.user with
      | some user =>
        if env.create then
          (updateFailed, { st with orders := saveOrder { o with orderStatus := token } st.orders })
        else
          (.ok 200 "Order status updated and customer notified",
            { st with
              orders := saveOrder { o with orderStatus := token } st.orders
              notifications := st.notifications ++
                [statusNotification user req.orderId token o._id] })
      | Option.none =>
        (.ok 200 "Order status updated and customer notified",
          { st with orders := saveOrder { o with orderStatus := token } st.orders }) := by
  have hc : validStatuses.contains token = true := by simpa using htoken
  unfold updateOrderStatus
  simp only [hreq, hc, if_true, hcast, h1, h2, hfind, Bool.false_eq_true, if_false]

/-- The stored order after a save of the order found under `id` with a new status. -/
theorem findOrderById_after_save (orders : List Order) (id : ObjectId) (o : Order)
    (token : String) (hfind : findOrderById orders id = some o) :
    findOrderById (saveOrder { o with orderStatus := token } orders) id =
      some { o with orderStatus := token } := by
  have hid : o._id = id := findOrderById_id orders id o hfind
  have h := findOrderById_saveOrder { o with orderStatus := token } orders o
    (by simpa [hid] using hfind)
  simpa [hid] using h

/-- Every run of `updateOrderStatus` either leaves the order collection as it was or saves
one stored order with a status of the enum. -/
theorem updateOrderStatus_orders (castId : JValue → Option ObjectId) (env : Faults)
    (st : Store) (req : UpdateStatusRequest) :
    (updateOrderStatus castId env st req).2.orders = st.orders ∨
    ∃ token id found, token ∈ validStatuses ∧ findOrderById st.orders id = some found ∧
      (updateOrderStatus castId env st req).2.orders =
        saveOrder { found with orderStatus := token } st.orders := by
  cases hreq : req.orderStatus with
  | str token =>
    by_cases hvalid : validStatuses.contains token = true
    · have hmem : token ∈ validStatuses := by simpa using hvalid
      cases hcast : castId (.str req.orderId) with
      | none => left; simp [updateOrderStatus, hreq, hmem, hcast]
      | some id =>
        cases h1 : env.findById with
        | true => left; simp [updateOrderStatus, hreq, hmem, hcast, h1]
        | false =>
          cases hfind : findOrderById st.orders id with
          | none => left; simp [updateOrderStatus, hreq, hmem, hcast, h1, hfind]
          | some found =>
            cases h2 : env.save with
            | true => left; simp [updateOrderStatus, hreq, hmem, hcast, h1, hfind, h2]
            | false =>
              refine Or.inr ⟨token, id, found, hmem, hfind, ?_⟩
              rw [updateOrderStatus_found castId env st req token id found hmem hreq hcast
                hfind h1 h2]
              cases found.user with
              | none => rfl
              | some user => dsimp only; split <;> rfl
    · have hmem : token ∉ validStatuses := by simpa using hvalid
      left; simp [updateOrderStatus, hreq, hmem]
  | undefined => left; simp [updateOrderStatus, hreq]
  | null => left; simp [updateOrderStatus, hreq]
  | bool b => left; simp [updateOrderStatus, hreq]
  | num n => left; simp [updateOrderStatus, hreq]
  | compound => left; simp [updateOrderStatus, hreq]

/-- One call keeps the status of every stored order inside the enum. -/
theorem updateOrderStatus_keeps_enum (castId : JValue → Option ObjectId) (env : Faults)
    (st : Store) (req : UpdateStatusRequest) (id : ObjectId) (o : Order)
    (hfind : findOrderById st.orders id = some o) (hs : o.orderStatus ∈ validStatuses) :
    ∃ o2, findOrderById (updateOrderStatus castId env st req).2.orders id = some o2 ∧
      o2.orderStatus ∈ validStatuses := by
  rcases updateOrderStatus_orders castId env st req with h | ⟨token, id2, found, ht, hf, h⟩
  · rw [h]; exact ⟨o, hfind, hs⟩
  · rw [h]
    by_cases hid : id2 = id
    · subst hid
      rw [findOrderById_after_save st.orders id2 found token hf]
      exact ⟨_, rfl, ht⟩
    · have hne : ({ found with orderStatus := token } : Order)._id ≠ id := by
        have := findOrderById_id st.orders id2 found hf
        simpa [this] using hid
      rw [findOrderById_saveOrder_ne _ _ _ hne]
      exact ⟨o, hfind, hs⟩

/-- Any sequence of calls keeps the status of every stored order inside the enum. -/
theorem runUpdates_keeps_enum (castId : JValue → Option ObjectId)
    (calls : List (Faults × UpdateStatusRequest)) :
    ∀ (st : Store) (id : ObjectId) (o : Order),
      findOrderById st.orders id = some o → o.orderStatus ∈ validStatuses →
      ∃ o2, findOrderById (runUpdates castId st calls).orders id = some o2 ∧
        o2.orderStatus ∈ validStatuses := by
  induction calls with
  | nil => intro st id o hfind hs; exact ⟨o, hfind, hs⟩
  | cons c rest ih =>
    intro st id o hfind hs
    obtain ⟨env, req⟩ := c
    obtain ⟨o1, h1, hs1⟩ := updateOrderStatus_keeps_enum castId env st req id o hfind hs
    exact ih _ id o1 h1 hs1

/-! ## Order lifecycle: the claims -/

/-- C1 (as stated, refuted): the order `anonymousOrder` exists in `exampleStore` and references
no user; the update to the valid token `Delivered` answers 200 and stores the token, but no
notification is added to the store. -/
theorem updateOrderStatus_anonymous_order_no_notification :
    "Delivered" ∈ validStatuses ∧
    findOrderById exampleStore.orders 1 = some anonymousOrder ∧
    (updateOrderStatus exampleCast Faults.none exampleStore ⟨"o1", .str "Delivered"⟩).1.status
      = 200 ∧
    ¬ ∃ n : Notification,
      (updateOrderStatus exampleCast Faults.none exampleStore
        ⟨"o1", .str "Delivered"⟩).2.notifications = exampleStore.notifications ++ [n] := by
  refine ⟨by decide, by decide, by decide, ?_⟩
  rintro ⟨n, hn⟩
  have h0 : (updateOrderStatus exampleCast Faults.none exampleStore
      ⟨"o1", .str "Delivered"⟩).2.notifications = [] := by decide
  rw [h0] at hn
  simp [exampleStore] at hn

/-- C1 (amended): when no store call rejects, a valid status token applied to an existing order
answers 200 and leaves the stored order with exactly that token; if the order references a
user, exactly one notification is appended, addressed to that user, with a title containing
the token; if the order references no user, no notification is added. -/
theorem updateOrderStatus_sets_status_and_notifies (castId : JValue → Option ObjectId)
    (st : Store) (req : UpdateStatusRequest) (token : String) (id : ObjectId) (o : Order)
    (htoken : token ∈ validStatuses) (hreq : req.orderStatus = .str token)
    (hcast : castId (.str req.orderId) = some id) (hfind : findOrderById st.orders id = some o) :
    (updateOrderStatus castId Faults.none st req).1.status = 200 ∧
    findOrderById (updateOrderStatus castId Faults.none st req).2.orders id =
      some { o with orderStatus := token } ∧
    (∀ u, o.user = some u →
      ∃ n : Notification,
        (updateOrderStatus castId Faults.none st req).2.notifications = st.notifications ++ [n] ∧
        n.recipient = u ∧ titleContains n token) ∧
    (o.user = Option.none →
      (updateOrderStatus castId Faults.none st req).2.notifications = st.notifications) := by
  have hrun := updateOrderStatus_found castId Faults.none st req token id o htoken hreq hcast
    hfind rfl rfl
  have hsave := findOrderById_after_save st.orders id o token hfind
  rw [hrun]
  cases hu : o.user with
  | none =>
    simp only [hu] at hsave
    refine ⟨rfl, hsave, ?_, fun _ => rfl⟩
    intro u h; cases h
  | some user =>
    simp only [hu] at hsave
    refine ⟨rfl, hsave, ?_, fun h => by cases h⟩
    intro u h
    cases h
    exact ⟨statusNotification user req.orderId token o._id, rfl, rfl,
      "Your order is now ", "", by simp [statusNotification]⟩

/-- Witness for C1: the order of user 5 in `exampleStore`, moved to `Preparing`. -/
theorem updateOrderStatus_sets_status_and_notifies_witness :
    "Preparing" ∈ validStatuses ∧
    findOrderById exampleStore.orders 2 = some customerOrder ∧
    (updateOrderStatus exampleCast Faults.none exampleStore ⟨"o2", .str "Preparing"⟩).1.status
      = 200 ∧
    findOrderById (updateOrderStatus exampleCast Faults.none exampleStore
      ⟨"o2", .str "Preparing"⟩).2.orders 2 =
        some { customerOrder with orderStatus := "Preparing" } ∧
    ∃ n : Notification,
      (updateOrderStatus exampleCast Faults.none exampleStore
        ⟨"o2", .str "Preparing"⟩).2.notifications = exampleStore.notifications ++ [n] ∧
      n.recipient = 5 ∧ titleContains n "Preparing" :=
  have h := updateOrderStatus_sets_status_and_notifies exampleCast exampleStore
    ⟨"o2", .str "Preparing"⟩ "Preparing" 2 customerOrder (by decide) rfl (by decide) (by decide)
  ⟨by decide, by decide, h.1, h.2.1, h.2.2.1 5 rfl⟩

/-- C2: an `orderStatus` value that is not one of the six tokens (a missing value included) is
answered 400 with the store unchanged, whatever the order id and whatever the store calls
would do: validation happens before any store access. -/
theorem updateOrderStatus_invalid_token (castId : JValue → Option ObjectId) (env : Faults)
    (st : Store) (req : UpdateStatusRequest)
    (hbad : ∀ token, token ∈ validStatuses → req.orderStatus ≠ .str token) :
    updateOrderStatus castId env st req = (.fail 400 "Invalid order status", st) := by
  cases hreq : req.orderStatus with
  | str token =>
    have hmem : token ∉ validStatuses := fun h => hbad token h hreq
    simp [updateOrderStatus, hreq, hmem]
  | undefined => simp [updateOrderStatus, hreq]
  | null => simp [updateOrderStatus, hreq]
  | bool b => simp [updateOrderStatus, hreq]
  | num n => simp [updateOrderStatus, hreq]
  | compound => simp [updateOrderStatus, hreq]

/-- Witness for C2: the token `Shipped` on the existing order 2 of `exampleStore`. -/
theorem updateOrderStatus_invalid_token_witness :
    updateOrderStatus exampleCast Faults.none exampleStore ⟨"o2", .str "Shipped"⟩ =
      (.fail 400 "Invalid order status", exampleStore) :=
  updateOrderStatus_invalid_token exampleCast Faults.none exampleStore ⟨"o2", .str "Shipped"⟩
    (by
      intro token htoken h
      have : token = "Shipped" := by injection h with h; exact h.symm
      subst this
      exact absurd htoken (by decide))

/-- C3: the transition graph is complete.  For statuses `s` and `t` of the enum (equal or not,
terminal or not), the update to `t` of an existing order in status `s` answers 200 when no
store call rejects and leaves the order in status `t`; and after any sequence of calls,
accepted or rejected, with any store failures, an order whose status was in the enum still
exists with a status in the enum. -/
theorem updateOrderStatus_transitions_complete (castId : JValue → Option ObjectId) :
    (∀ (s t : String) (st : Store) (req : UpdateStatusRequest) (id : ObjectId) (o : Order),
      s ∈ validStatuses → t ∈ validStatuses → req.orderStatus = .str t →
      castId (.str req.orderId) = some id → findOrderById st.orders id = some o → o.orderStatus = s →
      (updateOrderStatus castId Faults.none st req).1.status = 200 ∧
      ∃ o2, findOrderById (updateOrderStatus castId Faults.none st req).2.orders id = some o2 ∧
        o2.orderStatus = t) ∧
    (∀ (calls : List (Faults × UpdateStatusRequest)) (st : Store) (id : ObjectId) (o : Order),
      findOrderById st.orders id = some o → o.orderStatus ∈ validStatuses →
      ∃ o2, findOrderById (runUpdates castId st calls).orders id = some o2 ∧
        o2.orderStatus ∈ validStatuses) := by
  refine ⟨?_, fun calls st id o => runUpdates_keeps_enum castId calls st id o⟩
  intro s t st req id o _ ht hreq hcast hfind _
  have hrun := updateOrderStatus_found castId Faults.none st req t id o ht hreq hcast hfind
    rfl rfl
  have hsave := findOrderById_after_save st.orders id o t hfind
  rw [hrun]
  cases hu : o.user with
  | none => simp only [hu] at hsave; exact ⟨rfl, _, hsave, rfl⟩
  | some user => simp only [hu] at hsave; exact ⟨rfl, _, hsave, rfl⟩

/-- Witness for C3: the delivered order 2 of `exampleStore` goes back to `Placed`, and stays in
the enum over a sequence of an accepted, a rejected and a failing call. -/
theorem updateOrderStatus_transitions_complete_witness :
    ("Delivered" ∈ validStatuses ∧ "Placed" ∈ validStatuses ∧
      findOrderById exampleStore.orders 2 = some customerOrder ∧
      customerOrder.orderStatus = "Delivered") ∧
    ((updateOrderStatus exampleCast Faults.none exampleStore ⟨"o2", .str "Placed"⟩).1.status
        = 200 ∧
      ∃ o2, findOrderById (updateOrderStatus exampleCast Faults.none exampleStore
          ⟨"o2", .str "Placed"⟩).2.orders 2 = some o2 ∧ o2.orderStatus = "Placed") ∧
    ∃ o2, findOrderById (runUpdates exampleCast exampleStore
        [(Faults.none, ⟨"o2", .str "Cancelled"⟩), (Faults.none, ⟨"o2", .str "Shipped"⟩),
          (⟨false, false, true, false, false, false, false⟩, ⟨"o2", .str "Confirmed"⟩)]).orders 2
          = some o2 ∧ o2.orderStatus ∈ validStatuses :=
  ⟨⟨by decide, by decide, by decide, rfl⟩,
    (updateOrderStatus_transitions_complete exampleCast).1 "Delivered" "Placed" exampleStore
      ⟨"o2", .str "Placed"⟩ 2 customerOrder (by decide) (by decide) rfl (by decide) (by decide)
      rfl,
    (updateOrderStatus_transitions_complete exampleCast).2 _ exampleStore 2 customerOrder
      (by decide) (by decide)⟩

/-- C4: status update and notification are not atomic.  For a valid token and an existing order
that references a user, when the lookup and the save succeed and `Notification.create`
rejects, the answer is the generic 500 response, the stored order already carries the new
token, and the notification collection is what it was: nothing was created. -/
theorem updateOrderStatus_not_atomic (castId : JValue → Option ObjectId) (env : Faults)
    (st : Store) (req : UpdateStatusRequest) (token : String) (id : ObjectId) (o : Order)
    (u : ObjectId)
    (htoken : token ∈ validStatuses) (hreq : req.orderStatus = .str token)
    (hcast : castId (.str req.orderId) = some id) (hfind : findOrderById st.orders id = some o)
    (huser : o.user = some u)
    (h1 : env.findById = false) (h2 : env.save = false) (h3 : env.create = true) :
    (updateOrderStatus castId env st req).1 = .fail 500 "Failed to update order status" ∧
    findOrderById (updateOrderStatus castId env st req).2.orders id =
      some { o with orderStatus := token } ∧
    (updateOrderStatus castId env st req).2.notifications = st.notifications := by
  have hrun := updateOrderStatus_found castId env st req token id o htoken hreq hcast hfind
    h1 h2
  have hsave := findOrderById_after_save st.orders id o token hfind
  rw [hrun]
  simp only [huser] at hsave
  rw [huser]
  dsimp only
  rw [if_pos h3]
  exact ⟨rfl, hsave, rfl⟩

/-- Witness for C4: order 2 of `exampleStore` (user 5) with a failing `Notification.create`. -/
theorem updateOrderStatus_not_atomic_witness :
    (updateOrderStatus exampleCast ⟨false, false, true, false, false, false, false⟩ exampleStore
        ⟨"o2", .str "Cancelled"⟩).1 = .fail 500 "Failed to update order status" ∧
    findOrderById (updateOrderStatus exampleCast ⟨false, false, true, false, false, false, false⟩
        exampleStore ⟨"o2", .str "Cancelled"⟩).2.orders 2 =
      some { customerOrder with orderStatus := "Cancelled" } ∧
    (updateOrderStatus exampleCast ⟨false, false, true, false, false, false, false⟩ exampleStore
        ⟨"o2", .str "Cancelled"⟩).2.notifications = exampleStore.notifications :=
  updateOrderStatus_not_atomic exampleCast ⟨false, false, true, false, false, false, false⟩
    exampleStore ⟨"o2", .str "Cancelled"⟩ "Cancelled" 2 customerOrder 5 (by decide) rfl
    (by decide) (by decide) rfl rfl rfl rfl

/-! ## Dates: lemmas on the calendar arithmetic -/

theorem DayFromYear_succ (y : Int) : DayFromYear (y + 1) = DayFromYear y + DaysInYear y := by
  unfold DayFromYear DaysInYear
  split_ifs <;> omega

theorem DayFromYear_approx (y : Int) :
    146097 * (y - 1970) - 800 ≤ 400 * DayFromYear y ∧
    400 * DayFromYear y ≤ 146097 * (y - 1970) + 800 := by
  unfold DayFromYear
  omega

theorem DaysInYear_pos (y : Int) : 0 < DaysInYear y := by
  unfold DaysInYear; split_ifs <;> omega

theorem DayFromYear_mono {a b : Int} (h : a ≤ b) : DayFromYear a ≤ DayFromYear b := by
  refine Int.le_induction (P := fun n => DayFromYear a ≤ DayFromYear n) (le_refl _) ?_ b h
  intro n _ ih
  rw [DayFromYear_succ]
  have := DaysInYear_pos n
  omega

theorem YearFromDay_spec (d : Int) :
    DayFromYear (YearFromDay d) ≤ d ∧ d < DayFromYear (YearFromDay d + 1) := by
  have a0 := DayFromYear_approx (1970 + (400 * d) / 146097 - 1)
  have a2 := DayFromYear_approx (1970 + (400 * d) / 146097 + 1 + 1)
  unfold YearFromDay
  simp only
  split
  · rename_i h
    exact ⟨h, by omega⟩
  · split
    · rename_i h1 h2
      exact ⟨h2, by omega⟩
    · rename_i h1 h2
      have e : 1970 + 400 * d / 146097 - 1 + 1 = 1970 + 400 * d / 146097 := by ring
      rw [e]
      constructor <;> omega

theorem YearFromDay_unique (d y : Int) (h1 : DayFromYear y ≤ d) (h2 : d < DayFromYear (y + 1)) :
    YearFromDay d = y := by
  obtain ⟨s1, s2⟩ := YearFromDay_spec d
  by_contra hne
  rcases lt_or_gt_of_ne hne with h | h
  · have := DayFromYear_mono (show YearFromDay d + 1 ≤ y by omega)
    omega
  · have := DayFromYear_mono (show y + 1 ≤ YearFromDay d by omega)
    omega

theorem leapOfYear_cases (y : Int) : leapOfYear y = 0 ∨ leapOfYear y = 1 := by
  unfold leapOfYear; split <;> simp

theorem Day_MakeDate (day time : Int) (h0 : 0 ≤ time) (h1 : time < msPerDay) :
    Day (MakeDate day time) = day ∧ TimeWithinDay (MakeDate day time) = time := by
  unfold Day TimeWithinDay MakeDate msPerDay at *
  constructor <;> omega

theorem TimeWithinDay_range (t : Int) : 0 ≤ TimeWithinDay t ∧ TimeWithinDay t < msPerDay := by
  unfold TimeWithinDay msPerDay
  constructor <;> omega


theorem monthOfDayWithinYear_cases (dwy leap m : Int)
    (hm : m = monthOfDayWithinYear dwy leap) :
    (dwy < 31 ∧ m = 0) ∨
    (31 ≤ dwy ∧ dwy < 59 + leap ∧ m = 1) ∨
    (59 + leap ≤ dwy ∧ dwy < 90 + leap ∧ m = 2) ∨
    (90 + leap ≤ dwy ∧ dwy < 120 + leap ∧ m = 3) ∨
    (120 + leap ≤ dwy ∧ dwy < 151 + leap ∧ m = 4) ∨
    (151 + leap ≤ dwy ∧ dwy < 181 + leap ∧ m = 5) ∨
    (181 + leap ≤ dwy ∧ dwy < 212 + leap ∧ m = 6) ∨
    (212 + leap ≤ dwy ∧ dwy < 243 + leap ∧ m = 7) ∨
    (243 + leap ≤ dwy ∧ dwy < 273 + leap ∧ m = 8) ∨
    (273 + leap ≤ dwy ∧ dwy < 304 + leap ∧ m = 9) ∨
    (304 + leap ≤ dwy ∧ dwy < 334 + leap ∧ m = 10) ∨
    (334 + leap ≤ dwy ∧ m = 11) := by
  unfold monthOfDayWithinYear at hm
  by_cases h0 : dwy < 31
  · exact Or.inl ⟨h0, by rw [if_pos h0] at hm; exact hm⟩
  rw [if_neg h0] at hm
  by_cases h1 : dwy < 59 + leap
  · exact Or.inr (Or.inl ⟨by omega, h1, by rw [if_pos h1] at hm; exact hm⟩)
  rw [if_neg h1] at hm
  by_cases h2 : dwy < 90 + leap
  · exact Or.inr (Or.inr (Or.inl ⟨by omega, h2, by rw [if_pos h2] at hm; exact hm⟩))
  rw [if_neg h2] at hm
  by_cases h3 : dwy < 120 + leap
  · exact Or.inr (Or.inr (Or.inr (Or.inl ⟨by omega, h3, by rw [if_pos h3] at hm; exact hm⟩)))
  rw [if_neg h3] at hm
  by_cases h4 : dwy < 151 + leap
  · exact Or.inr (Or.inr (Or.inr (Or.inr (Or.inl ⟨by omega, h4, by rw [if_pos h4] at hm; exact hm⟩))))
  rw [if_neg h4] at hm
  by_cases h5 : dwy < 181 + leap
  · exact Or.inr (Or.inr (Or.inr (Or.inr (Or.inr (Or.inl ⟨by omega, h5, by rw [if_pos h5] at hm; exact hm⟩)))))
  rw [if_neg h5] at hm
  by_cases h6 : dwy < 212 + leap
  · exact Or.inr (Or.inr (Or.inr (Or.inr (Or.inr (Or.inr (Or.inl ⟨by omega, h6, by rw [if_pos h6] at hm; exact hm⟩))))))
  rw [if_neg h6] at hm
  by_cases h7 : dwy < 243 + leap
  · exact Or.inr (Or.inr (Or.inr (Or.inr (Or.inr (Or.inr (Or.inr (Or.inl ⟨by omega, h7, by rw [if_pos h7] at hm; exact hm⟩)))))))
  rw [if_neg h7] at hm
  by_cases h8 : dwy < 273 + leap
  · exact Or.inr (Or.inr (Or.inr (Or.inr (Or.inr (Or.inr (Or.inr (Or.inr (Or.inl ⟨by omega, h8, by rw [if_pos h8] at hm; exact hm⟩))))))))
  rw [if_neg h8] at hm
  by_cases h9 : dwy < 304 + leap
  · exact Or.inr (Or.inr (Or.inr (Or.inr (Or.inr (Or.inr (Or.inr (Or.inr (Or.inr (Or.inl ⟨by omega, h9, by rw [if_pos h9] at hm; exact hm⟩)))))))))
  rw [if_neg h9] at hm
  by_cases h10 : dwy < 334 + leap
  · exact Or.inr (Or.inr (Or.inr (Or.inr (Or.inr (Or.inr (Or.inr (Or.inr (Or.inr (Or.inr (Or.inl ⟨by omega, h10, by rw [if_pos h10] at hm; exact hm⟩))))))))))
  rw [if_neg h10] at hm
  exact Or.inr (Or.inr (Or.inr (Or.inr (Or.inr (Or.inr (Or.inr (Or.inr (Or.inr (Or.inr (Or.inr (⟨by omega, hm⟩)))))))))))

theorem daysBeforeMonth_cases (m leap r : Int) (hr : r = daysBeforeMonth m leap) :
    (m = 0 ∧ r = 0) ∨
    (m = 1 ∧ r = 31) ∨
    (m = 2 ∧ r = 59 + leap) ∨
    (m = 3 ∧ r = 90 + leap) ∨
    (m = 4 ∧ r = 120 + leap) ∨
    (m = 5 ∧ r = 151 + leap) ∨
    (m = 6 ∧ r = 181 + leap) ∨
    (m = 7 ∧ r = 212 + leap) ∨
    (m = 8 ∧ r = 243 + leap) ∨
    (m = 9 ∧ r = 273 + leap) ∨
    (m = 10 ∧ r = 304 + leap) ∨
    ((m < 0 ∨ 10 < m) ∧ r = 334 + leap) := by
  unfold daysBeforeMonth at hr
  by_cases h0 : m = 0
  · exact Or.inl ⟨h0, by rw [if_pos h0] at hr; exact hr⟩
  rw [if_neg h0] at hr
  by_cases h1 : m = 1
  · exact Or.inr (Or.inl ⟨h1, by rw [if_pos h1] at hr; exact hr⟩)
  rw [if_neg h1] at hr
  by_cases h2 : m = 2
  · exact Or.inr (Or.inr (Or.inl ⟨h2, by rw [if_pos h2] at hr; exact hr⟩))
  rw [if_neg h2] at hr
  by_cases h3 : m = 3
  · exact Or.inr (Or.inr (Or.inr (Or.inl ⟨h3, by rw [if_pos h3] at hr; exact hr⟩)))
  rw [if_neg h3] at hr
  by_cases h4 : m = 4
  · exact Or.inr (Or.inr (Or.inr (Or.inr (Or.inl ⟨h4, by rw [if_pos h4] at hr; exact hr⟩))))
  rw [if_neg h4] at hr
  by_cases h5 : m = 5
  · exact Or.inr (Or.inr (Or.inr (Or.inr (Or.inr (Or.inl ⟨h5, by rw [if_pos h5] at hr; exact hr⟩)))))
  rw [if_neg h5] at hr
  by_cases h6 : m = 6
  · exact Or.inr (Or.inr (Or.inr (Or.inr (Or.inr (Or.inr (Or.inl ⟨h6, by rw [if_pos h6] at hr; exact hr⟩))))))
  rw [if_neg h6] at hr
  by_cases h7 : m = 7
  · exact Or.inr (Or.inr (Or.inr (Or.inr (Or.inr (Or.inr (Or.inr (Or.inl ⟨h7, by rw [if_pos h7] at hr; exact hr⟩)))))))
  rw [if_neg h7] at hr
  by_cases h8 : m = 8
  · exact Or.inr (Or.inr (Or.inr (Or.inr (Or.inr (Or.inr (Or.inr (Or.inr (Or.inl ⟨h8, by rw [if_pos h8] at hr; exact hr⟩))))))))
  rw [if_neg h8] at hr
  by_cases h9 : m = 9
  · exact Or.inr (Or.inr (Or.inr (Or.inr (Or.inr (Or.inr (Or.inr (Or.inr (Or.inr (Or.inl ⟨h9, by rw [if_pos h9] at hr; exact hr⟩)))))))))
  rw [if_neg h9] at hr
  by_cases h10 : m = 10
  · exact Or.inr (Or.inr (Or.inr (Or.inr (Or.inr (Or.inr (Or.inr (Or.inr (Or.inr (Or.inr (Or.inl ⟨h10, by rw [if_pos h10] at hr; exact hr⟩))))))))))
  rw [if_neg h10] at hr
  exact Or.inr (Or.inr (Or.inr (Or.inr (Or.inr (Or.inr (Or.inr (Or.inr (Or.inr (Or.inr (Or.inr (⟨by omega, hr⟩)))))))))))

theorem monthOfDayWithinYear_range (dwy leap : Int) :
    0 ≤ monthOfDayWithinYear dwy leap ∧ monthOfDayWithinYear dwy leap ≤ 11 := by
  have := monthOfDayWithinYear_cases dwy leap _ rfl
  omega

theorem daysBeforeMonth_nonneg (m leap : Int) (hl : leap = 0 ∨ leap = 1) :
    0 ≤ daysBeforeMonth m leap := by
  have := daysBeforeMonth_cases m leap _ rfl
  omega

theorem daysBeforeMonth_le (dwy leap : Int) (h : 0 ≤ dwy) :
    daysBeforeMonth (monthOfDayWithinYear dwy leap) leap ≤ dwy := by
  have h1 := monthOfDayWithinYear_cases dwy leap _ rfl
  have h2 := daysBeforeMonth_cases (monthOfDayWithinYear dwy leap) leap _ rfl
  omega

theorem monthOfDayWithinYear_start (m leap : Int) (hm : 0 ≤ m ∧ m ≤ 11)
    (hl : leap = 0 ∨ leap = 1) :
    monthOfDayWithinYear (daysBeforeMonth m leap) leap = m := by
  have h1 := monthOfDayWithinYear_cases (daysBeforeMonth m leap) leap _ rfl
  have h2 := daysBeforeMonth_cases m leap _ rfl
  omega



theorem LocalTime_UTC (tza x : Int) : LocalTime tza (UTC tza x) = x := by
  unfold LocalTime UTC; omega

/-- The local time after `setHours`: the same local day, at the given time of day. -/
theorem LocalTime_setHours (tza t hour min sec ms : Int) :
    LocalTime tza (setHours tza t hour min sec ms) =
      MakeDate (Day (LocalTime tza t)) (MakeTime hour min sec ms) := by
  unfold setHours; rw [LocalTime_UTC]

/-- The day of the month counts from the first day of the month. -/
theorem MakeDay_own_month (t date : Int) :
    MakeDay (YearFromTime t) (MonthFromTime t) date = Day t - DateFromTime t + date := by
  have hr := monthOfDayWithinYear_range (DayWithinYear t) (InLeapYear t)
  have h12 : MonthFromTime t / 12 = 0 ∧ MonthFromTime t % 12 = MonthFromTime t := by
    unfold MonthFromTime; omega
  unfold MakeDay
  simp only [h12.1, h12.2, add_zero]
  unfold DateFromTime DayWithinYear InLeapYear
  omega

theorem DayWithinYear_nonneg (t : Int) : 0 ≤ DayWithinYear t := by
  have := (YearFromDay_spec (Day t)).1
  unfold DayWithinYear YearFromTime
  omega

theorem DateFromTime_pos (t : Int) : 1 ≤ DateFromTime t := by
  have := daysBeforeMonth_le (DayWithinYear t) (InLeapYear t) (DayWithinYear_nonneg t)
  unfold DateFromTime MonthFromTime
  omega

/-- The first day of the month of `t`, as a local midnight: same year, same month, date 1. -/
theorem first_of_month (t : Int) :
    YearFromTime (MakeDate (Day t - DateFromTime t + 1) 0) = YearFromTime t ∧
    MonthFromTime (MakeDate (Day t - DateFromTime t + 1) 0) = MonthFromTime t ∧
    DateFromTime (MakeDate (Day t - DateFromTime t + 1) 0) = 1 := by
  have hday : Day (MakeDate (Day t - DateFromTime t + 1) 0) = Day t - DateFromTime t + 1 :=
    (Day_MakeDate _ 0 (le_refl 0) (by decide)).1
  have hl := leapOfYear_cases (YearFromTime t)
  have hnn := daysBeforeMonth_nonneg (MonthFromTime t) (InLeapYear t) hl
  have hspec := YearFromDay_spec (Day t)
  have hpos := DateFromTime_pos t
  have hfirst : Day t - DateFromTime t + 1 =
      DayFromYear (YearFromTime t) + daysBeforeMonth (MonthFromTime t) (InLeapYear t) := by
    unfold DateFromTime DayWithinYear; omega
  have hyear : YearFromTime (MakeDate (Day t - DateFromTime t + 1) 0) = YearFromTime t := by
    unfold YearFromTime
    rw [hday]
    apply YearFromDay_unique
    · rw [hfirst]; unfold YearFromTime at hnn ⊢; omega
    · omega
  have hleap : InLeapYear (MakeDate (Day t - DateFromTime t + 1) 0) = InLeapYear t := by
    unfold InLeapYear; rw [hyear]
  have hdwy : DayWithinYear (MakeDate (Day t - DateFromTime t + 1) 0) =
      daysBeforeMonth (MonthFromTime t) (InLeapYear t) := by
    unfold DayWithinYear; rw [hyear, hday, hfirst]; omega
  have hmonth : MonthFromTime (MakeDate (Day t - DateFromTime t + 1) 0) = MonthFromTime t := by
    have hr := monthOfDayWithinYear_range (DayWithinYear t) (InLeapYear t)
    unfold MonthFromTime
    rw [hdwy, hleap]
    exact monthOfDayWithinYear_start _ _ hr hl
  refine ⟨hyear, hmonth, ?_⟩
  have e : ∀ x, DateFromTime x =
      DayWithinYear x - daysBeforeMonth (MonthFromTime x) (InLeapYear x) + 1 := fun _ => rfl
  rw [e (MakeDate (Day t - DateFromTime t + 1) 0), hdwy, hleap, hmonth]
  omega

theorem DateFromTime_congr (a b : Int) (h : Day a = Day b) : DateFromTime a = DateFromTime b := by
  simp only [DateFromTime, MonthFromTime, InLeapYear, DayWithinYear, YearFromTime, h]

/-- The time values of the window computed by `calculateDateRange`, when the clock reads of
one call fall on the same local day. -/
theorem calculateDateRange_values (tza : Int) (clock : ClockReads)
    (hEnd : Day (LocalTime tza clock.endDate) = Day (LocalTime tza clock.now))
    (hStart : Day (LocalTime tza clock.startDate) = Day (LocalTime tza clock.now)) :
    calculateDateRange tza clock (.str "day") =
      .success (UTC tza (MakeDate (Day (LocalTime tza clock.now)) 0))
        (UTC tza (MakeDate (Day (LocalTime tza clock.now)) (MakeTime 23 59 59 999))) ∧
    calculateDateRange tza clock (.str "week") =
      .success (UTC tza (MakeDate (Day (LocalTime tza clock.now) -
          (if WeekDay (LocalTime tza clock.now) = 0 then 6
            else WeekDay (LocalTime tza clock.now) - 1)) 0))
        (UTC tza (MakeDate (Day (LocalTime tza clock.now)) (MakeTime 23 59 59 999))) ∧
    calculateDateRange tza clock (.str "month") =
      .success (UTC tza (MakeDate (Day (LocalTime tza clock.now) -
          DateFromTime (LocalTime tza clock.now) + 1) 0))
        (UTC tza (MakeDate (Day (LocalTime tza clock.now)) (MakeTime 23 59 59 999))) := by
  have hend : setHours tza clock.endDate 23 59 59 999 =
      UTC tza (MakeDate (Day (LocalTime tza clock.now)) (MakeTime 23 59 59 999)) := by
    unfold setHours; rw [hEnd]
  have hstart : setHours tza clock.startDate 0 0 0 0 =
      UTC tza (MakeDate (Day (LocalTime tza clock.now)) 0) := by
    unfold setHours; rw [hStart]; rfl
  have hmid := Day_MakeDate (Day (LocalTime tza clock.now)) 0 (le_refl 0) (by decide)
  refine ⟨?_, ?_, ?_⟩
  · unfold calculateDateRange
    simp only [if_true, hend, hstart]
  · unfold calculateDateRange
    have hw : ("week" = "day") = False := by decide
    simp only [hw, if_false, if_true, hend, hstart]
    congr 1
    unfold setDate getDay getDate
    rw [LocalTime_UTC, MakeDay_own_month, hmid.1, hmid.2]
    unfold WeekDay
    rw [hmid.1]
    congr 2
    omega
  · unfold calculateDateRange
    have hw : ("month" = "day") = False := by decide
    have hw2 : ("month" = "week") = False := by decide
    simp only [hw, hw2, if_false, if_true, hend]
    congr 1
    rw [show setDate tza clock.startDate 1 = UTC tza (MakeDate (Day (LocalTime tza clock.startDate)
      - DateFromTime (LocalTime tza clock.startDate) + 1) (TimeWithinDay (LocalTime tza clock.startDate)))
      from by unfold setDate; rw [MakeDay_own_month]]
    unfold setHours
    rw [LocalTime_UTC]
    have htw := TimeWithinDay_range (LocalTime tza clock.startDate)
    rw [(Day_MakeDate _ _ htw.1 htw.2).1, hStart,
      DateFromTime_congr _ _ hStart]
    rfl

/-! ## Dates: the claim -/

/-- C7: when the clock reads of one call fall on the local day of `now`, `calculateDateRange`
returns, for each of the three periods, an `endDate` that is 23:59:59.999 of the local day of
`now` and a `startDate` that is a local midnight: of the day of `now` for `day`; of a Monday
at most six days before the day of `now` for `week` (that day itself on a Monday, six days
earlier on a Sunday); of the day with date 1 in the month and year of `now` for `month`.
In all three cases `startDate ≤ now ≤ endDate`. -/
theorem calculateDateRange_window (tza : Int) (clock : ClockReads)
    (hEnd : Day (LocalTime tza clock.endDate) = Day (LocalTime tza clock.now))
    (hStart : Day (LocalTime tza clock.startDate) = Day (LocalTime tza clock.now)) :
    (∀ p, p = "day" ∨ p = "week" ∨ p = "month" →
      ∃ s e, calculateDateRange tza clock (.str p) = .success s e ∧
        TimeWithinDay (LocalTime tza s) = 0 ∧
        Day (LocalTime tza e) = Day (LocalTime tza clock.now) ∧
        TimeWithinDay (LocalTime tza e) = MakeTime 23 59 59 999 ∧
        s ≤ clock.now ∧ clock.now ≤ e) ∧
    (∃ s e, calculateDateRange tza clock (.str "day") = .success s e ∧
      Day (LocalTime tza s) = Day (LocalTime tza clock.now)) ∧
    (∃ s e, calculateDateRange tza clock (.str "week") = .success s e ∧
      WeekDay (LocalTime tza s) = 1 ∧
      Day (LocalTime tza s) ≤ Day (LocalTime tza clock.now) ∧
      Day (LocalTime tza clock.now) - 6 ≤ Day (LocalTime tza s) ∧
      (WeekDay (LocalTime tza clock.now) = 1 →
        Day (LocalTime tza s) = Day (LocalTime tza clock.now)) ∧
      (WeekDay (LocalTime tza clock.now) = 0 →
        Day (LocalTime tza s) = Day (LocalTime tza clock.now) - 6)) ∧
    (∃ s e, calculateDateRange tza clock (.str "month") = .success s e ∧
      YearFromTime (LocalTime tza s) = YearFromTime (LocalTime tza clock.now) ∧
      MonthFromTime (LocalTime tza s) = MonthFromTime (LocalTime tza clock.now) ∧
      DateFromTime (LocalTime tza s) = 1) := by
  obtain ⟨hday, hweek, hmonth⟩ := calculateDateRange_values tza clock hEnd hStart
  have hpos := DateFromTime_pos (LocalTime tza clock.now)
  have hwd : 0 ≤ WeekDay (LocalTime tza clock.now) ∧ WeekDay (LocalTime tza clock.now) < 7 := by
    unfold WeekDay; omega
  have hdiff : 0 ≤ (if WeekDay (LocalTime tza clock.now) = 0 then 6
      else WeekDay (LocalTime tza clock.now) - 1) ∧
      (if WeekDay (LocalTime tza clock.now) = 0 then 6
        else WeekDay (LocalTime tza clock.now) - 1) ≤ 6 := by
    split <;> omega
  have hendOk : Day (MakeDate (Day (LocalTime tza clock.now)) (MakeTime 23 59 59 999)) =
        Day (LocalTime tza clock.now) ∧
      TimeWithinDay (MakeDate (Day (LocalTime tza clock.now)) (MakeTime 23 59 59 999)) =
        MakeTime 23 59 59 999 :=
    Day_MakeDate _ _ (by decide) (by decide)
  have hmid : ∀ D, Day (MakeDate D 0) = D ∧ TimeWithinDay (MakeDate D 0) = 0 :=
    fun D => Day_MakeDate D 0 (le_refl 0) (by decide)
  have hnowEnd : clock.now ≤
      UTC tza (MakeDate (Day (LocalTime tza clock.now)) (MakeTime 23 59 59 999)) := by
    unfold UTC MakeDate Day LocalTime MakeTime msPerDay; omega
  have hbelow : ∀ D, D ≤ Day (LocalTime tza clock.now) → UTC tza (MakeDate D 0) ≤ clock.now := by
    intro D hD
    unfold UTC MakeDate Day LocalTime msPerDay at *; omega
  refine ⟨?_, ?_, ?_, ?_⟩
  · intro p hp
    rcases hp with rfl | rfl | rfl
    · exact ⟨_, _, hday, by rw [LocalTime_UTC]; exact (hmid _).2,
        by rw [LocalTime_UTC]; exact hendOk.1, by rw [LocalTime_UTC]; exact hendOk.2,
        hbelow _ (le_refl _), hnowEnd⟩
    · exact ⟨_, _, hweek, by rw [LocalTime_UTC]; exact (hmid _).2,
        by rw [LocalTime_UTC]; exact hendOk.1, by rw [LocalTime_UTC]; exact hendOk.2,
        hbelow _ (by omega), hnowEnd⟩
    · exact ⟨_, _, hmonth, by rw [LocalTime_UTC]; exact (hmid _).2,
        by rw [LocalTime_UTC]; exact hendOk.1, by rw [LocalTime_UTC]; exact hendOk.2,
        hbelow _ (by omega), hnowEnd⟩
  · exact ⟨_, _, hday, by rw [LocalTime_UTC]; exact (hmid _).1⟩
  · refine ⟨_, _, hweek, ?_, ?_, ?_, ?_, ?_⟩
    · rw [LocalTime_UTC]; unfold WeekDay; rw [(hmid _).1]
      unfold WeekDay at hwd
      split <;> omega
    · rw [LocalTime_UTC, (hmid _).1]; omega
    · rw [LocalTime_UTC, (hmid _).1]; omega
    · intro h1; rw [LocalTime_UTC, (hmid _).1, h1]; simp
    · intro h0; rw [LocalTime_UTC, (hmid _).1, h0]; simp
  · obtain ⟨h1, h2, h3⟩ := first_of_month (LocalTime tza clock.now)
    exact ⟨_, _, hmonth, by rw [LocalTime_UTC]; exact h1, by rw [LocalTime_UTC]; exact h2,
      by rw [LocalTime_UTC]; exact h3⟩


/-- Witness for C7: Sunday 3 March 2024, 10:30 in a zone five hours ahead of UTC, the three
clock reads one millisecond apart; the week starts on Monday 26 February. -/
theorem calculateDateRange_window_witness :
    Day (LocalTime 18000000 1709443800001) = Day (LocalTime 18000000 1709443800000) ∧
    Day (LocalTime 18000000 1709443800002) = Day (LocalTime 18000000 1709443800000) ∧
    calculateDateRange 18000000 ⟨1709443800000, 1709443800001, 1709443800002⟩ (.str "week") =
      .success 1708887600000 1709492399999 ∧
    ∃ s e, calculateDateRange 18000000 ⟨1709443800000, 1709443800001, 1709443800002⟩
        (.str "month") = .success s e ∧
      YearFromTime (LocalTime 18000000 s) = YearFromTime (LocalTime 18000000 1709443800000) ∧
      MonthFromTime (LocalTime 18000000 s) = MonthFromTime (LocalTime 18000000 1709443800000) ∧
      DateFromTime (LocalTime 18000000 s) = 1 :=
  ⟨by decide, by decide, by decide,
    (calculateDateRange_window 18000000 ⟨1709443800000, 1709443800001, 1709443800002⟩
      (by decide) (by decide)).2.2.2⟩

/-! ## Sales report: lemmas -/

theorem inWindow_iff (s e : Int) (d : Option Int) :
    inWindow s e d = true ↔ liesInWindow s e d := by
  cases d with
  | none => simp [inWindow, liesInWindow]
  | some t => simp [inWindow, liesInWindow]

theorem salesMatch_iff (rid : ObjectId) (s e : Int) (o : Order) :
    salesMatch rid s e o = true ↔
      o.restaurant = rid ∧ (liesInWindow s e o.createdAt ∨
        liesInWindow s e o.estimatedDeliveryTime) := by
  unfold salesMatch
  rw [Bool.and_eq_true, Bool.or_eq_true, inWindow_iff, inWindow_iff, decide_eq_true_eq]
  constructor
  · rintro ⟨h, h2⟩; exact ⟨h, h2.symm⟩
  · rintro ⟨h, h2⟩; exact ⟨h, h2.symm⟩

theorem sum_ones (docs : List Order) : (docs.map (fun _ => 1)).sum = docs.length := by
  induction docs with
  | nil => rfl
  | cons x xs ih => simp [ih]; omega

theorem groupSales_nonempty (docs : List Order) (h : docs ≠ []) :
    groupSales docs =
      [{ totalSales := (docs.map (fun o => o.finalTotal)).sum
         totalOrders := docs.length
         totalItems := (docs.map (fun o => o.items.length)).sum
         totalDiscounts := (docs.map (fun o => o.discount)).sum
         orders := docs }] := by
  cases docs with
  | nil => exact absurd rfl h
  | cons x xs => simp only [groupSales, sum_ones]

theorem groupSales_totalOrders (docs : List Order) (g : SalesGroup) (h : g ∈ groupSales docs) :
    1 ≤ g.totalOrders := by
  cases docs with
  | nil => simp [groupSales] at h
  | cons x xs =>
    rw [groupSales_nonempty _ (by simp)] at h
    simp only [List.mem_singleton] at h
    subst h
    simp

theorem salesReport_ok (castId : JValue → Option ObjectId) (tza : Int) (clock : ClockReads)
    (env : Faults) (st : Store) (ownerId : ObjectId) (req : SalesReportRequest)
    (rid : ObjectId) (r : Restaurant) (s e : Int)
    (hcast : castId req.restaurantId = some rid) (h1 : env.findOne = false)
    (hown : findOwnedRestaurant st.restaurants rid ownerId = some r)
    (hrange : calculateDateRange tza clock req.period = .success s e)
    (h2 : env.find = false) (h3 : env.aggregate = false) :
    salesReport castId tza clock env st ownerId req =
      .ok 200 (buildReport (salesAggregate st.orders rid s e) s e) := by
  unfold salesReport
  simp only [hcast, h1, hown, hrange, h2, h3, Bool.false_eq_true, if_false]

theorem jsDivide_finite (a : ℚ) (n : Nat) (h : 1 ≤ n) :
    jsDivide a n = .finite (a / n) := by
  unfold jsDivide
  have : (n : ℚ) ≠ 0 := by
    have : n ≠ 0 := by omega
    exact_mod_cast this
  rw [if_neg this]

/-! ## Sales report: the claims -/

/-- C5: for an owned restaurant and the window `[startDate, endDate]` of the period, when no
store call rejects, the `$match` stage keeps exactly the orders of the restaurant whose
`createdAt` or `estimatedDeliveryTime` lies in the window, ends included; and when at least
one order matches the report carries the sum of their `finalTotal`, their count, the sum of
the lengths of their `items`, the sum of their `discount`, and `averageOrderValue` equal to
`totalSales / totalOrders`. -/
theorem salesReport_totals (castId : JValue → Option ObjectId) (tza : Int) (clock : ClockReads)
    (st : Store) (ownerId : ObjectId) (req : SalesReportRequest)
    (rid : ObjectId) (r : Restaurant) (s e : Int)
    (hcast : castId req.restaurantId = some rid)
    (hown : findOwnedRestaurant st.restaurants rid ownerId = some r)
    (hrange : calculateDateRange tza clock req.period = .success s e) :
    (∀ o, salesMatch rid s e o = true ↔
      o.restaurant = rid ∧
        (liesInWindow s e o.createdAt ∨ liesInWindow s e o.estimatedDeliveryTime)) ∧
    (st.orders.filter (salesMatch rid s e) ≠ [] →
      ∃ report, salesReport castId tza clock Faults.none st ownerId req = .ok 200 report ∧
        report.orders = some (st.orders.filter (salesMatch rid s e)) ∧
        report.totalSales =
          ((st.orders.filter (salesMatch rid s e)).map (fun o => o.finalTotal)).sum ∧
        report.totalOrders = (st.orders.filter (salesMatch rid s e)).length ∧
        report.totalItems =
          ((st.orders.filter (salesMatch rid s e)).map (fun o => o.items.length)).sum ∧
        report.totalDiscounts =
          ((st.orders.filter (salesMatch rid s e)).map (fun o => o.discount)).sum ∧
        report.averageOrderValue = .finite (report.totalSales / report.totalOrders)) := by
  refine ⟨salesMatch_iff rid s e, fun hne => ?_⟩
  have hresp := salesReport_ok castId tza clock Faults.none st ownerId req rid r s e hcast rfl
    hown hrange rfl rfl
  have hlen : 1 ≤ (st.orders.filter (salesMatch rid s e)).length := by
    cases hm : st.orders.filter (salesMatch rid s e) with
    | nil => exact absurd hm hne
    | cons x xs => simp
  rw [hresp]
  unfold salesAggregate
  rw [groupSales_nonempty _ hne]
  exact ⟨_, rfl, rfl, rfl, rfl, rfl, rfl, jsDivide_finite _ _ hlen⟩

/-- Witness for C5: the report of the day 3 March 2024 for restaurant 7: two orders match,
totalling 30 and 20 with no discount, so the sales are 50 and the average order value 25. -/
theorem salesReport_totals_witness :
    analyticsStore.orders.filter (salesMatch 7 1709406000000 1709492399999) =
      [morningOrder, eveningOrder] ∧
    ∃ report,
      salesReport exampleCast 18000000 exampleClock Faults.none analyticsStore 9
        ⟨.str "r7", .str "day"⟩ = .ok 200 report ∧
      report.totalSales = 50 ∧ report.totalOrders = 2 ∧ report.totalItems = 3 ∧
      report.totalDiscounts = 0 ∧ report.averageOrderValue = .finite 25 := by
  have hm : analyticsStore.orders.filter (salesMatch 7 1709406000000 1709492399999) =
      [morningOrder, eveningOrder] := by decide
  obtain ⟨report, hr, _, h1, h2, h3, h4, h5⟩ :=
    (salesReport_totals exampleCast 18000000 exampleClock analyticsStore 9
      ⟨.str "r7", .str "day"⟩ 7 exampleRestaurant 1709406000000 1709492399999
      (by decide) (by decide) (by decide)).2 (by rw [hm]; simp)
  rw [hm] at h1 h2 h3 h4
  have e1 : report.totalSales = 50 := by rw [h1]; norm_num [morningOrder, eveningOrder]
  have e2 : report.totalOrders = 2 := by rw [h2]; rfl
  have e3 : report.totalItems = 3 := by rw [h3]; rfl
  have e4 : report.totalDiscounts = 0 := by rw [h4]; norm_num [morningOrder, eveningOrder]
  refine ⟨hm, report, hr, e1, e2, e3, e4, ?_⟩
  rw [h5, e1, e2]; norm_num

theorem buildReport_finite (groups : List SalesGroup) (s e : Int)
    (h : ∀ g, g ∈ groups → 1 ≤ g.totalOrders) :
    ∃ q, (buildReport groups s e).averageOrderValue = .finite q := by
  cases groups with
  | nil => exact ⟨0, rfl⟩
  | cons g gs => exact ⟨_, jsDivide_finite _ _ (h g (by simp))⟩

/-- C6: when no order of the restaurant matches the window, the report has `totalSales`,
`totalOrders`, `totalItems`, `totalDiscounts` and `averageOrderValue` all 0; every document
that the `$group` stage produces has `totalOrders` at least 1, so the division is only ever
performed by a count of at least 1; and whatever the request, the store and the store
faults, the `averageOrderValue` of a report that is sent is a finite number. -/
theorem salesReport_no_division_by_zero (castId : JValue → Option ObjectId) (tza : Int)
    (clock : ClockReads) (st : Store) (ownerId : ObjectId) (req : SalesReportRequest) :
    (∀ (rid : ObjectId) (r : Restaurant) (s e : Int),
      castId req.restaurantId = some rid →
      findOwnedRestaurant st.restaurants rid ownerId = some r →
      calculateDateRange tza clock req.period = .success s e →
      st.orders.filter (salesMatch rid s e) = [] →
      salesReport castId tza clock Faults.none st ownerId req =
        .ok 200 ⟨0, 0, 0, 0, Option.none, .finite 0, s, e⟩) ∧
    (∀ (rid : ObjectId) (s e : Int) (g : SalesGroup),
      g ∈ salesAggregate st.orders rid s e →
        1 ≤ g.totalOrders ∧
        jsDivide g.totalSales g.totalOrders = .finite (g.totalSales / g.totalOrders)) ∧
    (∀ (env : Faults) (status : Nat) (report : SalesReport),
      salesReport castId tza clock env st ownerId req = .ok status report →
        ∃ q, report.averageOrderValue = .finite q) := by
  refine ⟨?_, ?_, ?_⟩
  · intro rid r s e hcast hown hrange hnone
    rw [salesReport_ok castId tza clock Faults.none st ownerId req rid r s e hcast rfl hown
      hrange rfl rfl]
    unfold salesAggregate
    rw [hnone]
    rfl
  · intro rid s e g hg
    have h1 := groupSales_totalOrders _ g hg
    exact ⟨h1, jsDivide_finite _ _ h1⟩
  · intro env status report h
    unfold salesReport at h
    split at h
    · cases h
    · split at h
      · cases h
      · split at h
        · cases h
        · split at h
          · cases h
          · split at h
            · cases h
            · split at h
              · cases h
              · injection h with _ hrep
                subst hrep
                exact buildReport_finite _ _ _ (fun g hg => groupSales_totalOrders _ g hg)

/-- Witness for C6: the report for restaurant 7 over a day on which it has no order. -/
theorem salesReport_no_division_by_zero_witness :
    analyticsStore.orders.filter (salesMatch 7 1798743600000 1798829999999) = [] ∧
    salesReport exampleCast 18000000 ⟨1798743605000, 1798743605000, 1798743605000⟩
        Faults.none analyticsStore 9 ⟨.str "r7", .str "day"⟩ =
      .ok 200 ⟨0, 0, 0, 0, Option.none, .finite 0, 1798743600000, 1798829999999⟩ :=
  ⟨by decide,
    (salesReport_no_division_by_zero exampleCast 18000000
      ⟨1798743605000, 1798743605000, 1798743605000⟩ analyticsStore 9
      ⟨.str "r7", .str "day"⟩).1 7 exampleRestaurant 1798743600000 1798829999999
      (by decide) (by decide) (by decide) (by decide)⟩


theorem findOwnedRestaurant_isSome_iff (restaurants : List Restaurant) (id owner : ObjectId) :
    (∃ r, findOwnedRestaurant restaurants id owner = some r) ↔
      ∃ r, r ∈ restaurants ∧ r._id = id ∧ r.owner = owner := by
  unfold findOwnedRestaurant
  constructor
  · rintro ⟨r, h⟩
    have h1 := List.find?_some h
    have h2 := List.mem_of_find?_eq_some h
    simp only [Bool.and_eq_true, decide_eq_true_eq] at h1
    exact ⟨r, h2, h1⟩
  · rintro ⟨r, hmem, h1, h2⟩
    cases hf : restaurants.find? (fun r => decide (r._id = id) && decide (r.owner = owner)) with
    | some x => exact ⟨x, rfl⟩
    | none =>
      rw [List.find?_eq_none] at hf
      have := hf r hmem
      simp [h1, h2] at this

theorem calculateDateRange_isSuccess (tza : Int) (clock : ClockReads) (period : JValue) :
    (calculateDateRange tza clock period).isSuccess = true ↔ isPeriodToken period := by
  unfold isPeriodToken
  cases period with
  | str p =>
    unfold calculateDateRange
    by_cases h1 : p = "day"
    · subst h1; simp [DateRange.isSuccess]
    · by_cases h2 : p = "week"
      · subst h2; simp [DateRange.isSuccess]
      · by_cases h3 : p = "month"
        · subst h3; simp [DateRange.isSuccess]
        · simp [DateRange.isSuccess, h1, h2, h3]
  | undefined => simp [calculateDateRange, DateRange.isSuccess]
  | null => simp [calculateDateRange, DateRange.isSuccess]
  | bool b => simp [calculateDateRange, DateRange.isSuccess]
  | num n => simp [calculateDateRange, DateRange.isSuccess]
  | compound => simp [calculateDateRange, DateRange.isSuccess]

theorem calculateDateRange_failure (tza : Int) (clock : ClockReads) (period : JValue)
    (error : String) (h : calculateDateRange tza clock period = .failure error) :
    error = invalidPeriod := by
  unfold calculateDateRange at h
  split at h
  · split at h
    · cases h
    · split at h
      · cases h
      · split at h
        · cases h
        · injection h with h; exact h.symm
  · injection h with h; exact h.symm

theorem namesOwnedRestaurant_iff (castId : JValue → Option ObjectId) (st : Store)
    (ownerId : ObjectId) (v : JValue) :
    namesOwnedRestaurant castId st ownerId v ↔
      ∃ id r, castId v = some id ∧ findOwnedRestaurant st.restaurants id ownerId = some r := by
  unfold namesOwnedRestaurant
  constructor
  · rintro ⟨r, hmem, hc, ho⟩
    obtain ⟨r2, h2⟩ := (findOwnedRestaurant_isSome_iff st.restaurants r._id ownerId).2
      ⟨r, hmem, rfl, ho⟩
    exact ⟨r._id, r2, hc, h2⟩
  · rintro ⟨id, r, hc, hf⟩
    obtain ⟨r2, hmem, hid, ho⟩ := (findOwnedRestaurant_isSome_iff st.restaurants id ownerId).1
      ⟨r, hf⟩
    exact ⟨r2, hmem, by rw [hc, hid], ho⟩

/-- The response of the sales report once the restaurant is found: the period error, a store
failure, or the report. -/
theorem salesReport_owned (castId : JValue → Option ObjectId) (tza : Int) (clock : ClockReads)
    (env : Faults) (st : Store) (ownerId : ObjectId) (req : SalesReportRequest)
    (id : ObjectId) (r : Restaurant)
    (hcast : castId req.restaurantId = some id) (h1 : env.findOne = false)
    (hown : findOwnedRestaurant st.restaurants id ownerId = some r) :
    (¬ isPeriodToken req.period ∧
      salesReport castId tza clock env st ownerId req = .fail 400 invalidPeriod) ∨
    (isPeriodToken req.period ∧
      (salesReport castId tza clock env st ownerId req = .fail 500 "Failed to generate sales report" ∨
        ∃ report, salesReport castId tza clock env st ownerId req = .ok 200 report)) := by
  have hsucc := calculateDateRange_isSuccess tza clock req.period
  unfold salesReport
  simp only [hcast, h1, hown, Bool.false_eq_true, if_false]
  cases hr : calculateDateRange tza clock req.period with
  | failure error =>
    left
    rw [hr] at hsucc
    have herr := calculateDateRange_failure tza clock req.period error hr
    refine ⟨fun h => ?_, by rw [herr]⟩
    have := hsucc.2 h
    simp [DateRange.isSuccess] at this
  | success s e =>
    right
    rw [hr] at hsucc
    refine ⟨hsucc.1 rfl, ?_⟩
    dsimp only
    split
    · exact Or.inl rfl
    · split
      · exact Or.inl rfl
      · exact Or.inr ⟨_, rfl⟩

/-- C8: for an authenticated owner, when the restaurant lookup does not reject, the sales
report fails with the restaurant error (400 for an id that is not a valid identifier, 404
otherwise) exactly when the restaurant id does not name a restaurant owned by the caller,
whatever the period; for an owned restaurant it fails with the period error (400) exactly
when the period is not one of `day`, `week`, `month`; and `calculateDateRange` returns
`success = false` exactly for the periods outside that set. -/
theorem salesReport_error_precedence (castId : JValue → Option ObjectId) (tza : Int)
    (clock : ClockReads) (env : Faults) (st : Store) (ownerId : ObjectId)
    (req : SalesReportRequest) (h1 : env.findOne = false) :
    ((salesReport castId tza clock env st ownerId req =
          .fail 400 "Invalid restaurant ID format" ∨
        salesReport castId tza clock env st ownerId req =
          .fail 404 "Restaurant not found or unauthorized access") ↔
      ¬ namesOwnedRestaurant castId st ownerId req.restaurantId) ∧
    (castId req.restaurantId = Option.none →
      salesReport castId tza clock env st ownerId req =
        .fail 400 "Invalid restaurant ID format") ∧
    (∀ id, castId req.restaurantId = some id →
      ¬ namesOwnedRestaurant castId st ownerId req.restaurantId →
      salesReport castId tza clock env st ownerId req =
        .fail 404 "Restaurant not found or unauthorized access") ∧
    (namesOwnedRestaurant castId st ownerId req.restaurantId →
      (salesReport castId tza clock env st ownerId req = .fail 400 invalidPeriod ↔
        ¬ isPeriodToken req.period)) ∧
    (∀ period, (calculateDateRange tza clock period).isSuccess = false ↔
      ¬ isPeriodToken period) := by
  have hnone : castId req.restaurantId = Option.none →
      salesReport castId tza clock env st ownerId req =
        .fail 400 "Invalid restaurant ID format" := by
    intro hc
    unfold salesReport
    simp only [hc]
  have hnot : ∀ id, castId req.restaurantId = some id →
      ¬ namesOwnedRestaurant castId st ownerId req.restaurantId →
      salesReport castId tza clock env st ownerId req =
        .fail 404 "Restaurant not found or unauthorized access" := by
    intro id hc hno
    cases hf : findOwnedRestaurant st.restaurants id ownerId with
    | none =>
      unfold salesReport
      simp only [hc, h1, hf, Bool.false_eq_true, if_false]
    | some r =>
      exact absurd ((namesOwnedRestaurant_iff castId st ownerId req.restaurantId).2
        ⟨id, r, hc, hf⟩) hno
  refine ⟨⟨?_, ?_⟩, hnone, hnot, ?_, ?_⟩
  · intro hresp hown
    obtain ⟨id, r, hc, hf⟩ := (namesOwnedRestaurant_iff castId st ownerId req.restaurantId).1 hown
    rcases salesReport_owned castId tza clock env st ownerId req id r hc h1 hf with
      ⟨_, h⟩ | ⟨_, h | ⟨report, h⟩⟩
    · rw [h] at hresp
      rcases hresp with h2 | h2
      · injection h2 with _ h3; exact absurd h3 (by decide)
      · injection h2 with h3 _; exact absurd h3 (by decide)
    · rw [h] at hresp
      rcases hresp with h2 | h2
      · injection h2 with h3 _; exact absurd h3 (by decide)
      · injection h2 with h3 _; exact absurd h3 (by decide)
    · rw [h] at hresp
      rcases hresp with h2 | h2 <;> cases h2
  · intro hno
    cases hc : castId req.restaurantId with
    | none => exact Or.inl (hnone hc)
    | some id => exact Or.inr (hnot id hc hno)
  · intro hown
    obtain ⟨id, r, hc, hf⟩ := (namesOwnedRestaurant_iff castId st ownerId req.restaurantId).1 hown
    rcases salesReport_owned castId tza clock env st ownerId req id r hc h1 hf with
      ⟨hp, h⟩ | ⟨hp, h | ⟨report, h⟩⟩
    · exact ⟨fun _ => hp, fun _ => h⟩
    · refine ⟨fun h2 => ?_, fun h2 => absurd hp h2⟩
      rw [h] at h2
      injection h2 with h3 _; exact absurd h3 (by decide)
    · refine ⟨fun h2 => ?_, fun h2 => absurd hp h2⟩
      rw [h] at h2
      cases h2
  · intro period
    rw [← calculateDateRange_isSuccess tza clock period]
    simp

/-- Witness for C8: the id 2 names no restaurant of user 9 and the period is wrong: the
restaurant error is reported; restaurant 7 is owned and the period `year` is rejected. -/
theorem salesReport_error_precedence_witness :
    salesReport exampleCast 18000000 exampleClock Faults.none analyticsStore 9
        ⟨.str "o2", .str "year"⟩ = .fail 404 "Restaurant not found or unauthorized access" ∧
    (salesReport exampleCast 18000000 exampleClock Faults.none analyticsStore 9
        ⟨.str "r7", .str "year"⟩ = .fail 400 invalidPeriod ↔
      ¬ isPeriodToken (.str "year")) :=
  have h := salesReport_error_precedence exampleCast 18000000 exampleClock Faults.none
    analyticsStore 9
  ⟨(h ⟨.str "o2", .str "year"⟩ rfl).2.2.1 2 (by decide) (by
      intro ⟨r, hmem, hc, _⟩
      simp [analyticsStore, exampleRestaurant] at hmem
      subst hmem
      revert hc
      decide),
    (h ⟨.str "r7", .str "year"⟩ rfl).2.2.2.1 ⟨exampleRestaurant, by decide, by decide, rfl⟩⟩

/-! ## Popular items: lemmas -/

theorem soldIn_addToGroup (n : String) (q : Int) (groups : List PopularItem) (name : String) :
    soldIn (addToGroup n q groups) name = soldIn groups name + (if n = name then q else 0) := by
  induction groups with
  | nil =>
    by_cases h : n = name <;> simp [addToGroup, soldIn, h]
  | cons g gs ih =>
    unfold addToGroup
    by_cases hg : g._id = n
    · rw [if_pos hg]
      by_cases h : n = name
      · have hgn : g._id = name := hg.trans h
        simp [soldIn, h, hgn, List.filter_cons]
        omega
      · have hgn : ¬ g._id = name := fun h2 => h (hg.symm.trans h2)
        simp [soldIn, h, hgn, List.filter_cons]
    · rw [if_neg hg]
      by_cases hgn : g._id = name
      · have e1 : soldIn (g :: addToGroup n q gs) name =
            g.totalSold + soldIn (addToGroup n q gs) name := by
          simp [soldIn, hgn, List.filter_cons]
        have e2 : soldIn (g :: gs) name = g.totalSold + soldIn gs name := by
          simp [soldIn, hgn, List.filter_cons]
        rw [e1, e2, ih]; omega
      · have e1 : soldIn (g :: addToGroup n q gs) name = soldIn (addToGroup n q gs) name := by
          simp [soldIn, hgn, List.filter_cons]
        have e2 : soldIn (g :: gs) name = soldIn gs name := by
          simp [soldIn, hgn, List.filter_cons]
        rw [e1, e2, ih]

theorem names_addToGroup (n : String) (q : Int) (groups : List PopularItem) :
    (addToGroup n q groups).map (fun g => g._id) =
      if n ∈ groups.map (fun g => g._id) then groups.map (fun g => g._id)
      else groups.map (fun g => g._id) ++ [n] := by
  induction groups with
  | nil => simp [addToGroup]
  | cons g gs ih =>
    unfold addToGroup
    by_cases hg : g._id = n
    · simp [hg]
    · have hne : ¬ n = g._id := fun h => hg h.symm
      rw [if_neg hg]
      simp only [List.map_cons, ih, List.mem_cons, hne, false_or]
      split <;> simp

theorem nodup_addToGroup (n : String) (q : Int) (groups : List PopularItem)
    (h : (groups.map (fun g => g._id)).Nodup) :
    ((addToGroup n q groups).map (fun g => g._id)).Nodup := by
  rw [names_addToGroup]
  split
  · exact h
  · rename_i hn
    rw [List.nodup_append]
    refine ⟨h, List.nodup_singleton n, ?_⟩
    intro a ha hb
    simp only [List.mem_singleton] at hb
    exact hn (hb ▸ ha)

theorem soldOf_append (xs ys : List (OrderItem × MenuItem)) (name : String) :
    soldOf (xs ++ ys) name = soldOf xs name + soldOf ys name := by
  simp [soldOf]

theorem groupByName_fold (docs : List (OrderItem × MenuItem)) :
    ∀ (acc : List PopularItem),
      ((acc.map (fun g => g._id)).Nodup →
        ((docs.foldl (fun groups d => addToGroup d.2.name d.1.quantity groups) acc).map
          (fun g => g._id)).Nodup) ∧
      (∀ name, soldIn (docs.foldl (fun groups d => addToGroup d.2.name d.1.quantity groups) acc)
          name = soldIn acc name + soldOf docs name) ∧
      (∀ name, (name ∈ acc.map (fun g => g._id) ∨ name ∈ docs.map (fun d => d.2.name)) ↔
        name ∈ (docs.foldl (fun groups d => addToGroup d.2.name d.1.quantity groups) acc).map
          (fun g => g._id)) := by
  induction docs with
  | nil => intro acc; simp [soldOf]
  | cons d ds ih =>
    intro acc
    obtain ⟨h1, h2, h3⟩ := ih (addToGroup d.2.name d.1.quantity acc)
    refine ⟨fun hn => h1 (nodup_addToGroup _ _ _ hn), fun name => ?_, fun name => ?_⟩
    · rw [List.foldl_cons, h2, soldIn_addToGroup]
      have : soldOf (d :: ds) name = (if d.2.name = name then d.1.quantity else 0) +
          soldOf ds name := by
        by_cases h : d.2.name = name <;> simp [soldOf, h, List.filter_cons]
      rw [this]; omega
    · rw [List.foldl_cons, ← h3, names_addToGroup]
      by_cases hmem : d.2.name ∈ acc.map (fun g => g._id)
      · rw [if_pos hmem]
        simp only [List.map_cons, List.mem_cons]
        constructor
        · rintro (h | h | h)
          · exact Or.inl h
          · exact Or.inl (h ▸ hmem)
          · exact Or.inr h
        · rintro (h | h)
          · exact Or.inl h
          · exact Or.inr (Or.inr h)
      · rw [if_neg hmem]
        simp only [List.map_cons, List.mem_cons, List.mem_append, List.mem_singleton]
        tauto

theorem groupByName_spec (docs : List (OrderItem × MenuItem)) :
    ((groupByName docs).map (fun g => g._id)).Nodup ∧
    (∀ name, soldIn (groupByName docs) name = soldOf docs name) ∧
    (∀ name, name ∈ (groupByName docs).map (fun g => g._id) ↔
      name ∈ docs.map (fun d => d.2.name)) := by
  obtain ⟨h1, h2, h3⟩ := groupByName_fold docs []
  refine ⟨h1 List.nodup_nil, fun name => ?_, fun name => ?_⟩
  · have := h2 name
    simp only [soldIn, List.filter_nil, List.map_nil, List.sum_nil, zero_add] at this
    simpa [soldIn, groupByName] using this
  · have := h3 name
    simp only [List.map_nil, List.not_mem_nil, false_or] at this
    exact this.symm

theorem soldIn_of_mem (groups : List PopularItem) (g : PopularItem)
    (hnd : (groups.map (fun g => g._id)).Nodup) (hg : g ∈ groups) :
    soldIn groups g._id = g.totalSold := by
  induction groups with
  | nil => simp at hg
  | cons x xs ih =>
    rw [List.map_cons, List.nodup_cons] at hnd
    rcases List.mem_cons.1 hg with h | h
    · subst h
      have hnone : xs.filter (fun y => decide (y._id = g._id)) = [] := by
        rw [List.filter_eq_nil_iff]
        intro y hy hyg
        simp only [decide_eq_true_eq] at hyg
        exact hnd.1 (List.mem_map.2 ⟨y, hy, hyg⟩)
      simp [soldIn, List.filter_cons, hnone]
    · have hne : ¬ x._id = g._id := fun hx =>
        hnd.1 (List.mem_map.2 ⟨g, h, hx.symm⟩)
      have := ih hnd.2 h
      simpa [soldIn, List.filter_cons, hne] using this

theorem filter_id_nodup (menuItems : List MenuItem) (id : ObjectId)
    (hnd : (menuItems.map (fun m => m._id)).Nodup) :
    menuItems.filter (fun m => decide (m._id = id)) = [] ∨
      ∃ m, m ∈ menuItems ∧ menuItems.filter (fun m => decide (m._id = id)) = [m] := by
  induction menuItems with
  | nil => left; rfl
  | cons x xs ih =>
    rw [List.map_cons, List.nodup_cons] at hnd
    by_cases hx : x._id = id
    · right
      refine ⟨x, by simp, ?_⟩
      have hnone : xs.filter (fun m => decide (m._id = id)) = [] := by
        rw [List.filter_eq_nil_iff]
        intro y hy hyid
        simp only [decide_eq_true_eq] at hyid
        exact hnd.1 (List.mem_map.2 ⟨y, hy, hyid.trans hx.symm⟩)
      simp [List.filter_cons, hx, hnone]
    · rcases ih hnd.2 with h | ⟨m, hm, h⟩
      · left; simp [List.filter_cons, hx, h]
      · right; exact ⟨m, List.mem_cons_of_mem _ hm, by simp [List.filter_cons, hx, h]⟩

/-- The contribution of one order item to the sum for a name. -/
theorem soldOf_item (menuItems : List MenuItem) (item : OrderItem) (name : String)
    (hnd : (menuItems.map (fun m => m._id)).Nodup) :
    soldOf ((menuItems.filter (fun m => decide (m._id = item.menuItem))).map
        (fun m => (item, m))) name =
      if menuItems.any (fun m => decide (m._id = item.menuItem) && decide (m.name = name))
      then item.quantity else 0 := by
  rcases filter_id_nodup menuItems item.menuItem hnd with h | ⟨m, hm, h⟩
  · have hany : menuItems.any
        (fun m => decide (m._id = item.menuItem) && decide (m.name = name)) = false := by
      rw [List.any_eq_false]
      intro y hy
      rw [List.filter_eq_nil_iff] at h
      have := h y hy
      simp only [decide_eq_true_eq] at this
      simp [this]
    rw [h, hany]
    simp [soldOf]
  · have hmid : m._id = item.menuItem := by
      have : m ∈ menuItems.filter (fun m => decide (m._id = item.menuItem)) := by
        rw [h]; simp
      simpa using (List.mem_filter.1 this).2
    have hany : menuItems.any
        (fun m => decide (m._id = item.menuItem) && decide (m.name = name)) =
        decide (m.name = name) := by
      by_cases hn : m.name = name
      · simp only [hn, decide_True]
        rw [List.any_eq_true]
        exact ⟨m, hm, by simp [hmid, hn]⟩
      · simp only [hn, decide_False]
        rw [List.any_eq_false]
        intro y hy
        by_cases hyid : y._id = item.menuItem
        · have hy2 : y ∈ menuItems.filter (fun m => decide (m._id = item.menuItem)) :=
            List.mem_filter.2 ⟨hy, by simpa using hyid⟩
          rw [h] at hy2
          simp only [List.mem_singleton] at hy2
          subst hy2
          simp [hn]
        · simp [hyid]
    rw [h, hany]
    by_cases hn : m.name = name <;> simp [soldOf, hn, List.filter_cons]

theorem soldOf_flatMap (items : List OrderItem) (menuItems : List MenuItem) (name : String)
    (hnd : (menuItems.map (fun m => m._id)).Nodup) :
    soldOf (items.flatMap (fun item =>
        (menuItems.filter (fun m => decide (m._id = item.menuItem))).map
          (fun m => (item, m)))) name =
      (items.map (fun item =>
        if menuItems.any (fun m => decide (m._id = item.menuItem) && decide (m.name = name))
        then item.quantity else 0)).sum := by
  induction items with
  | nil => simp [soldOf]
  | cons x xs ih =>
    rw [List.flatMap_cons, soldOf_append, ih, soldOf_item menuItems x name hnd]
    simp

theorem soldOf_joinedItems (orders : List Order) (menuItems : List MenuItem)
    (restaurantId : ObjectId) (name : String)
    (hnd : (menuItems.map (fun m => m._id)).Nodup) :
    soldOf (joinedItems orders menuItems restaurantId) name =
      quantitySold orders menuItems restaurantId name := by
  unfold joinedItems quantitySold
  exact soldOf_flatMap _ menuItems name hnd

/-! ## Popular items: the claims -/


theorem popularItems_ok (castId : JValue → Option ObjectId) (st : Store) (ownerId : ObjectId)
    (req : PopularItemsRequest) (rid : ObjectId) (r : Restaurant)
    (hcast : castId req.restaurantId = some rid)
    (hown : findOwnedRestaurant st.restaurants rid ownerId = some r) :
    popularItems castId Faults.none st ownerId req =
      .ok 200 (popularItemsPipeline st.orders st.menuItems rid) := by
  unfold popularItems
  simp only [hcast, hown, Faults.none, Bool.false_eq_true, if_false]

theorem popularItemsPipeline_sublist (orders : List Order) (menuItems : List MenuItem)
    (rid : ObjectId) :
    ∃ sorted : List PopularItem, sorted.Perm (groupByName (joinedItems orders menuItems rid)) ∧
      sorted.Sorted soldAtLeast ∧
      popularItemsPipeline orders menuItems rid = sorted.take 10 :=
  ⟨_, List.perm_insertionSort _ _, List.sorted_insertionSort _ _, rfl⟩

/-- C9: for an owned restaurant, when no store call rejects and menu-item ids are unique,
the popular-items result has at most one entry per menu-item name, and the `totalSold` of
each entry is the sum of quantity over all order items, across all orders of the restaurant,
whose menu item has that name. -/
theorem popularItems_totals (castId : JValue → Option ObjectId) (st : Store)
    (ownerId : ObjectId) (req : PopularItemsRequest) (rid : ObjectId) (r : Restaurant)
    (hcast : castId req.restaurantId = some rid)
    (hown : findOwnedRestaurant st.restaurants rid ownerId = some r)
    (hids : (st.menuItems.map (fun m => m._id)).Nodup) :
    ∃ result, popularItems castId Faults.none st ownerId req = .ok 200 result ∧
      (result.map (fun g => g._id)).Nodup ∧
      ∀ g, g ∈ result → g.totalSold = quantitySold st.orders st.menuItems rid g._id := by
  obtain ⟨sorted, hperm, _, hres⟩ := popularItemsPipeline_sublist st.orders st.menuItems rid
  obtain ⟨hnd, hsold, _⟩ := groupByName_spec (joinedItems st.orders st.menuItems rid)
  refine ⟨_, popularItems_ok castId st ownerId req rid r hcast hown, ?_, ?_⟩
  · rw [hres]
    have h1 : (sorted.map (fun g => g._id)).Nodup :=
      ((hperm.map (fun g => g._id)).nodup_iff).2 hnd
    exact h1.sublist ((List.take_sublist 10 sorted).map _)
  · intro g hg
    rw [hres] at hg
    have hmem : g ∈ groupByName (joinedItems st.orders st.menuItems rid) :=
      hperm.subset (List.mem_of_mem_take hg)
    rw [← soldOf_joinedItems st.orders st.menuItems rid g._id hids, ← hsold,
      soldIn_of_mem _ g hnd hmem]

/-- Witness for C9: restaurant 7 sold Biryani x3 in one order and x2 in another: one entry for
Biryani with `totalSold` 5. -/
theorem popularItems_totals_witness :
    popularItems exampleCast Faults.none analyticsStore 9 ⟨.str "r7"⟩ =
      .ok 200 [⟨"Biryani", 5⟩, ⟨"Naan", 2⟩] ∧
    ∃ result, popularItems exampleCast Faults.none analyticsStore 9 ⟨.str "r7"⟩ =
        .ok 200 result ∧
      (result.map (fun g => g._id)).Nodup ∧
      ∀ g, g ∈ result → g.totalSold = quantitySold analyticsStore.orders
        analyticsStore.menuItems 7 g._id :=
  ⟨by decide,
    popularItems_totals exampleCast analyticsStore 9 ⟨.str "r7"⟩ 7 exampleRestaurant
      (by decide) (by decide) (by decide)⟩

/-- The result against the groups of the `$group` stage: at most 10 entries, ordered by
`totalSold`, largest first; every group left out of the result has a `totalSold` at most
that of every returned entry; the groups are exactly the names of the joined order items,
and when there are 10 groups or fewer all are returned. -/
theorem popularItems_top_groups (castId : JValue → Option ObjectId) (st : Store)
    (ownerId : ObjectId) (req : PopularItemsRequest) (rid : ObjectId) (r : Restaurant)
    (hcast : castId req.restaurantId = some rid)
    (hown : findOwnedRestaurant st.restaurants rid ownerId = some r) :
    ∃ result, popularItems castId Faults.none st ownerId req = .ok 200 result ∧
      result.length ≤ 10 ∧
      result.Pairwise (fun a b => b.totalSold ≤ a.totalSold) ∧
      (∀ g, g ∈ groupByName (joinedItems st.orders st.menuItems rid) → g ∉ result →
        ∀ x, x ∈ result → g.totalSold ≤ x.totalSold) ∧
      (∀ name, name ∈ (groupByName (joinedItems st.orders st.menuItems rid)).map
          (fun g => g._id) ↔
        name ∈ (joinedItems st.orders st.menuItems rid).map (fun d => d.2.name)) ∧
      ((groupByName (joinedItems st.orders st.menuItems rid)).length ≤ 10 →
        ∀ g, g ∈ groupByName (joinedItems st.orders st.menuItems rid) → g ∈ result) := by
  obtain ⟨sorted, hperm, hsorted, hres⟩ :=
    popularItemsPipeline_sublist st.orders st.menuItems rid
  obtain ⟨_, _, hnames⟩ := groupByName_spec (joinedItems st.orders st.menuItems rid)
  have hsplit : (sorted.take 10 ++ sorted.drop 10).Pairwise soldAtLeast := by
    rw [List.take_append_drop]; exact hsorted
  rw [List.pairwise_append] at hsplit
  refine ⟨_, popularItems_ok castId st ownerId req rid r hcast hown, ?_, ?_, ?_, hnames, ?_⟩
  · rw [hres, List.length_take]; omega
  · rw [hres]; exact hsplit.1
  · intro g hg hnot x hx
    rw [hres] at hnot hx
    have hgs : g ∈ sorted.take 10 ++ sorted.drop 10 := by
      rw [List.take_append_drop]; exact hperm.symm.subset hg
    rcases List.mem_append.1 hgs with h | h
    · exact absurd h hnot
    · exact hsplit.2.2 x hx g h
  · intro hlen g hg
    rw [hres, List.take_of_length_le (by rw [hperm.length_eq]; exact hlen)]
    exact hperm.symm.subset hg


theorem joinedItems_names (orders : List Order) (menuItems : List MenuItem) (rid : ObjectId)
    (name : String) :
    name ∈ (joinedItems orders menuItems rid).map (fun d => d.2.name) ↔
      isSoldName orders menuItems rid name := by
  unfold joinedItems isSoldName
  simp only [List.mem_map, List.mem_flatMap, List.mem_filter, decide_eq_true_eq]
  constructor
  · rintro ⟨d, ⟨item, ⟨o, ⟨ho, hr⟩, hitem⟩, m, ⟨hm, hid⟩, rfl⟩, hname⟩
    exact ⟨o, ho, hr, item, hitem, m, hm, hid, hname⟩
  · rintro ⟨o, ho, hr, item, hitem, m, hm, hid, hname⟩
    exact ⟨(item, m), ⟨item, ⟨o, ⟨ho, hr⟩, hitem⟩, m, ⟨hm, hid⟩, rfl⟩, hname⟩

/-- The groups of the `$group` stage against the store: one group per sold name, holding
the quantity sold under that name. -/
theorem groupByName_store (orders : List Order) (menuItems : List MenuItem) (rid : ObjectId)
    (hids : (menuItems.map (fun m => m._id)).Nodup) :
    ((groupByName (joinedItems orders menuItems rid)).map (fun g => g._id)).Nodup ∧
    (∀ g, g ∈ groupByName (joinedItems orders menuItems rid) →
      isSoldName orders menuItems rid g._id ∧
      g.totalSold = quantitySold orders menuItems rid g._id) ∧
    (∀ name, isSoldName orders menuItems rid name →
      ∃ g, g ∈ groupByName (joinedItems orders menuItems rid) ∧ g._id = name) := by
  obtain ⟨hnd, hsold, hnames⟩ := groupByName_spec (joinedItems orders menuItems rid)
  refine ⟨hnd, fun g hg => ⟨?_, ?_⟩, fun name hn => ?_⟩
  · rw [← joinedItems_names, ← hnames]
    exact List.mem_map.2 ⟨g, hg, rfl⟩
  · rw [← soldOf_joinedItems orders menuItems rid g._id hids, ← hsold,
      soldIn_of_mem _ g hnd hg]
  · have := (hnames name).2 ((joinedItems_names orders menuItems rid name).2 hn)
    obtain ⟨g, hg, hgn⟩ := List.mem_map.1 this
    exact ⟨g, hg, hgn⟩

/-- C10: for an owned restaurant, when no store call rejects and menu-item ids are unique,
the popular-items result has at most 10 entries, ordered by `totalSold`, largest first; each
entry is a sold name with the quantity sold under it; every sold name that is left out has
a quantity sold at most the `totalSold` of every returned entry; and when no more than 10
distinct names are sold, every sold name is returned. -/
theorem popularItems_top_ten (castId : JValue → Option ObjectId) (st : Store)
    (ownerId : ObjectId) (req : PopularItemsRequest) (rid : ObjectId) (r : Restaurant)
    (hcast : castId req.restaurantId = some rid)
    (hown : findOwnedRestaurant st.restaurants rid ownerId = some r)
    (hids : (st.menuItems.map (fun m => m._id)).Nodup) :
    ∃ result, popularItems castId Faults.none st ownerId req = .ok 200 result ∧
      result.length ≤ 10 ∧
      result.Pairwise (fun a b => b.totalSold ≤ a.totalSold) ∧
      (∀ x, x ∈ result → isSoldName st.orders st.menuItems rid x._id ∧
        x.totalSold = quantitySold st.orders st.menuItems rid x._id) ∧
      (∀ name, isSoldName st.orders st.menuItems rid name →
        name ∉ result.map (fun x => x._id) →
        ∀ x, x ∈ result → quantitySold st.orders st.menuItems rid name ≤ x.totalSold) ∧
      ((∀ names : List String, names.Nodup →
          (∀ name, name ∈ names → isSoldName st.orders st.menuItems rid name) →
          names.length ≤ 10) →
        ∀ name, isSoldName st.orders st.menuItems rid name →
          ∃ x, x ∈ result ∧ x._id = name ∧
            x.totalSold = quantitySold st.orders st.menuItems rid name) := by
  obtain ⟨result, hresp, hlen, hpair, homit, _, hall⟩ :=
    popularItems_top_groups castId st ownerId req rid r hcast hown
  obtain ⟨hnd, hgroup, hsoldName⟩ := groupByName_store st.orders st.menuItems rid hids
  have hsub : ∀ x, x ∈ result → x ∈ groupByName (joinedItems st.orders st.menuItems rid) := by
    intro x hx
    obtain ⟨sorted, hperm, _, hres⟩ := popularItemsPipeline_sublist st.orders st.menuItems rid
    have hr : result = popularItemsPipeline st.orders st.menuItems rid := by
      have := popularItems_ok castId st ownerId req rid r hcast hown
      rw [hresp] at this
      injection this
    rw [hr, hres] at hx
    exact hperm.subset (List.mem_of_mem_take hx)
  refine ⟨result, hresp, hlen, hpair, fun x hx => hgroup x (hsub x hx), ?_, ?_⟩
  · intro name hn hnot x hx
    obtain ⟨g, hg, hgn⟩ := hsoldName name hn
    have hgnot : g ∉ result := fun hgr => hnot (List.mem_map.2 ⟨g, hgr, hgn⟩)
    have := homit g hg hgnot x hx
    rw [(hgroup g hg).2, hgn] at this
    exact this
  · intro hfew name hn
    obtain ⟨g, hg, hgn⟩ := hsoldName name hn
    have hlen10 : (groupByName (joinedItems st.orders st.menuItems rid)).length ≤ 10 := by
      have := hfew _ hnd (by
        intro n hmem
        obtain ⟨g2, hg2, rfl⟩ := List.mem_map.1 hmem
        exact (hgroup g2 hg2).1)
      simpa using this
    refine ⟨g, hall hlen10 g hg, hgn, ?_⟩
    rw [(hgroup g hg).2, hgn]

/-- Witness for C10: restaurant 7 sold two names, Biryani and Naan; both are returned, and
Naan comes with the 2 sold. -/
theorem popularItems_top_ten_witness :
    isSoldName analyticsStore.orders analyticsStore.menuItems 7 "Naan" ∧
    ∃ result, popularItems exampleCast Faults.none analyticsStore 9 ⟨.str "r7"⟩ =
        .ok 200 result ∧
      result.length ≤ 10 ∧
      result.Pairwise (fun a b => b.totalSold ≤ a.totalSold) ∧
      ∃ x, x ∈ result ∧ x._id = "Naan" ∧ x.totalSold = 2 := by
  have hnaan : isSoldName analyticsStore.orders analyticsStore.menuItems 7 "Naan" :=
    ⟨eveningOrder, by decide, rfl, ⟨22, 1⟩, by decide, ⟨22, 7, "Naan"⟩, by decide, rfl, rfl⟩
  have hfew : ∀ names : List String, names.Nodup →
      (∀ name, name ∈ names →
        isSoldName analyticsStore.orders analyticsStore.menuItems 7 name) →
      names.length ≤ 10 := by
    intro names hnd hsold
    have hsub : names ⊆ ["Biryani", "Naan"] := by
      intro name hname
      obtain ⟨_, _, _, _, _, m, hm, _, hmn⟩ := hsold name hname
      simp only [analyticsStore, List.mem_cons, List.mem_singleton, List.not_mem_nil,
        or_false] at hm
      rcases hm with rfl | rfl | rfl <;> simp [← hmn]
    have := (hnd.subperm hsub).length_le
    simp only [List.length_cons, List.length_nil] at this
    omega
  obtain ⟨result, hresp, hlen, hpair, _, _, hall⟩ :=
    popularItems_top_ten exampleCast analyticsStore 9 ⟨.str "r7"⟩ 7 exampleRestaurant
      (by decide) (by decide) (by decide)
  obtain ⟨x, hx, hxn, hxq⟩ := hall hfew "Naan" hnaan
  exact ⟨hnaan, result, hresp, hlen, hpair, x, hx, hxn, by rw [hxq]; decide⟩

/-! ## Order listing: the claim -/

theorem owned_contains_iff (restaurants : List Restaurant) (owner rid : ObjectId) :
    ((restaurants.filter (fun r => decide (r.owner = owner))).map (fun r => r._id)).contains rid
      = true ↔ ownedBy restaurants owner rid := by
  unfold ownedBy
  rw [List.contains_iff_exists_mem_beq]
  simp only [beq_iff_eq, List.mem_map, exists_exists_and_eq_and]
  constructor
  · rintro ⟨r, hr, hid⟩
    rw [List.mem_filter] at hr
    exact ⟨r, hr.1, hid.symm, by simpa using hr.2⟩
  · rintro ⟨r, hr, hid, ho⟩
    exact ⟨r, List.mem_filter.2 ⟨hr, by simpa using ho⟩, hid.symm⟩

/-- The run of `getOrders` for a caller whose token verifies and whose user document
exists, when the user lookup does not reject. -/
theorem getOrders_authenticated (jwtVerify : String → Option JValue)
    (castId : JValue → Option ObjectId) (env : Faults) (st : Store)
    (authorization : Option String) (token : String) (sub : JValue) (id : ObjectId)
    (user : User)
    (ht : headerToken authorization = some token) (he : token ≠ "")
    (hv : jwtVerify token = some sub) (hc : castId sub = some id)
    (henv : env.findById = false) (hu : findUserById st.users id = some user) :
    getOrders jwtVerify castId env st authorization =
      if user.role ≠ "restaurant" then .fail 403 ownersOnly
      else if env.find then fetchFailed
      else if (st.restaurants.filter (fun r => decide (r.owner = id))).length = 0 then
        .fail 404 "No restaurants found for this owner."
      else
        .ok 200 (((st.orders.filter (fun o =>
          ((st.restaurants.filter (fun r => decide (r.owner = id))).map
            (fun r => r._id)).contains o.restaurant)).map (populateOrder st)).insertionSort
          createdNoEarlier) := by
  unfold getOrders
  simp only [ht, he, hv, hc, henv, hu, if_false, Bool.false_eq_true]

/-- C11: for a caller whose token verifies and whose user document exists, when no store
call rejects: with role `restaurant` and at least one owned restaurant, `getOrders` answers
200, every order returned is a stored order of a restaurant whose owner is the caller, and
every stored order of a restaurant owned by the caller is returned; with another role it
answers 403; with role `restaurant` and no owned restaurant it answers 404; the 403 and 404
answers carry no order. -/
theorem getOrders_owner_scope (jwtVerify : String → Option JValue)
    (castId : JValue → Option ObjectId) (st : Store) (authorization : Option String)
    (token : String) (sub : JValue) (id : ObjectId) (user : User)
    (ht : headerToken authorization = some token) (he : token ≠ "")
    (hv : jwtVerify token = some sub) (hc : castId sub = some id)
    (hu : findUserById st.users id = some user) :
    (user.role = "restaurant" → (∃ r, r ∈ st.restaurants ∧ r.owner = id) →
      ∃ listed, getOrders jwtVerify castId Faults.none st authorization = .ok 200 listed ∧
        (∀ l, l ∈ listed → l.order ∈ st.orders ∧ ownedBy st.restaurants id l.order.restaurant) ∧
        (∀ o, o ∈ st.orders → ownedBy st.restaurants id o.restaurant →
          ∃ l, l ∈ listed ∧ l.order = o) ∧
        (listed.map (fun l => l.order)).Perm
          (st.orders.filter (fun o => decide (ownedBy st.restaurants id o.restaurant)))) ∧
    (user.role ≠ "restaurant" →
      getOrders jwtVerify castId Faults.none st authorization = .fail 403 ownersOnly) ∧
    (user.role = "restaurant" → (¬ ∃ r, r ∈ st.restaurants ∧ r.owner = id) →
      getOrders jwtVerify castId Faults.none st authorization =
        .fail 404 "No restaurants found for this owner.") := by
  have hrun := getOrders_authenticated jwtVerify castId Faults.none st authorization token sub
    id user ht he hv hc rfl hu
  have hfind : Faults.none.find = false := rfl
  refine ⟨?_, ?_, ?_⟩
  · rintro hr ⟨r, hmem, ho⟩
    have hlen : (st.restaurants.filter (fun r => decide (r.owner = id))).length ≠ 0 := by
      have : r ∈ st.restaurants.filter (fun r => decide (r.owner = id)) :=
        List.mem_filter.2 ⟨hmem, by simpa using ho⟩
      intro h0
      rw [List.length_eq_zero] at h0
      rw [h0] at this
      exact absurd this (List.not_mem_nil r)
    rw [hrun]
    simp only [hr, ne_eq, not_true_eq_false, if_false, hfind, Bool.false_eq_true, hlen]
    have hperm := List.perm_insertionSort createdNoEarlier
      ((st.orders.filter (fun o =>
        ((st.restaurants.filter (fun r => decide (r.owner = id))).map
          (fun r => r._id)).contains o.restaurant)).map (populateOrder st))
    have hfilter : st.orders.filter (fun o =>
        ((st.restaurants.filter (fun r => decide (r.owner = id))).map
          (fun r => r._id)).contains o.restaurant) =
        st.orders.filter (fun o => decide (ownedBy st.restaurants id o.restaurant)) := by
      apply List.filter_congr
      intro o _
      rw [Bool.eq_iff_iff, owned_contains_iff]
      simp
    rw [hfilter] at hperm ⊢
    have hmap : (((st.orders.filter (fun o => decide (ownedBy st.restaurants id
        o.restaurant))).map (populateOrder st)).map (fun l => l.order)) =
        st.orders.filter (fun o => decide (ownedBy st.restaurants id o.restaurant)) := by
      rw [List.map_map]
      exact List.map_id _
    refine ⟨_, rfl, ?_, ?_, ?_⟩
    · intro l hl
      have hl2 := hperm.subset hl
      obtain ⟨o, ho, rfl⟩ := List.mem_map.1 hl2
      rw [List.mem_filter] at ho
      exact ⟨ho.1, by simpa using ho.2⟩
    · intro o ho hown
      refine ⟨populateOrder st o, hperm.symm.subset (List.mem_map.2 ⟨o, ?_, rfl⟩), rfl⟩
      exact List.mem_filter.2 ⟨ho, by simpa using hown⟩
    · have := hperm.map (fun l => l.order)
      rw [hmap] at this
      exact this
  · intro hr
    rw [hrun]
    simp only [hr, ne_eq, not_false_eq_true, if_true]
  · intro hr hnone
    have hlen : (st.restaurants.filter (fun r => decide (r.owner = id))).length = 0 := by
      rw [List.length_eq_zero, List.filter_eq_nil_iff]
      intro r hmem hro
      exact hnone ⟨r, hmem, by simpa using hro⟩
    rw [hrun]
    simp only [hr, ne_eq, not_true_eq_false, if_false, hfind, Bool.false_eq_true, hlen,
      if_true]


/-- Witness for C11: user 9 owns restaurant 7 and gets its three orders, latest first, and
not the order of restaurant 8; the customer (user 5) gets 403. -/
theorem getOrders_owner_scope_witness :
    getOrders exampleVerify routeCast Faults.none ownerStore (some "Bearer tok9") =
      .ok 200 [populateOrder ownerStore morningOrder, populateOrder ownerStore oldOrder,
        populateOrder ownerStore eveningOrder] ∧
    (∃ listed, getOrders exampleVerify routeCast Faults.none ownerStore (some "Bearer tok9") =
        .ok 200 listed ∧
      (∀ l, l ∈ listed → l.order ∈ ownerStore.orders ∧
        ownedBy ownerStore.restaurants 9 l.order.restaurant) ∧
      (∀ o, o ∈ ownerStore.orders → ownedBy ownerStore.restaurants 9 o.restaurant →
        ∃ l, l ∈ listed ∧ l.order = o) ∧
      (listed.map (fun l => l.order)).Perm
        (ownerStore.orders.filter
          (fun o => decide (ownedBy ownerStore.restaurants 9 o.restaurant)))) ∧
    getOrders exampleVerify routeCast Faults.none ownerStore (some "Bearer tok5") =
      .fail 403 ownersOnly :=
  ⟨by decide,
    (getOrders_owner_scope exampleVerify routeCast ownerStore (some "Bearer tok9") "tok9"
      (.str "u9") 9 ⟨9, "restaurant"⟩ (by decide) (by decide) (by decide) (by decide)
      (by decide)).1 rfl ⟨exampleRestaurant, by decide, rfl⟩,
    (getOrders_owner_scope exampleVerify routeCast ownerStore (some "Bearer tok5") "tok5"
      (.str "u5") 5 ⟨5, "customer"⟩ (by decide) (by decide) (by decide) (by decide)
      (by decide)).2.1 (by decide)⟩

/-! ## Identity and role check: the claim -/

/-- C13 (as stated, refuted): the header `Basic tok9` carries a valid token of a restaurant
owner after a scheme that is not `Bearer`, and the middleware calls `next()`. -/
theorem verifyRestaurantOwner_accepts_any_scheme :
    verifyRestaurantOwner "Invalid token." exampleVerify routeCast Faults.none ownerStore.users
      (some "Basic tok9") = .next (.str "u9") := by decide

theorem verifyRestaurantOwner_next (catchError : String) (jwtVerify : String → Option JValue)
    (castId : JValue → Option ObjectId) (env : Faults) (users : List User)
    (authorization : Option String) (ownerId : JValue)
    (h : verifyRestaurantOwner catchError jwtVerify castId env users authorization =
      .next ownerId) :
    ∃ token id user, headerToken authorization = some token ∧ token ≠ "" ∧
      jwtVerify token = some ownerId ∧ castId ownerId = some id ∧
      findUserById users id = some user ∧ user.role = "restaurant" := by
  unfold verifyRestaurantOwner at h
  cases ht : headerToken authorization with
  | none => simp [ht] at h
  | some token =>
    by_cases he : token = ""
    · simp [ht, he] at h
    · cases hv : jwtVerify token with
      | none => simp [ht, he, hv] at h
      | some sub =>
        cases hc : castId sub with
        | none => simp [ht, he, hv, hc] at h
        | some id =>
          cases hf : env.findById with
          | true => simp [ht, he, hv, hc, hf] at h
          | false =>
            cases hu : findUserById users id with
            | none => simp [ht, he, hv, hc, hf, hu] at h
            | some user =>
              by_cases hr : user.role = "restaurant"
              · simp [ht, he, hv, hc, hf, hu, hr] at h
                subst h
                exact ⟨token, id, user, rfl, he, hv, hc, hu, hr⟩
              · simp [ht, he, hv, hc, hf, hu, hr] at h

/-- C13 (amended): when the user lookup does not reject, the middleware decides in this
precedence: 401 when the header is absent or its second space-separated field is missing or
empty; else 400 when the token fails verification; else 404 when no user has the token's
subject id; else 403 when that user's role is not `restaurant`; else it calls `next()` with
`req.ownerId` equal to the token's subject id.  `next()` is called in the success case only.
The first field of the header is not examined. -/
theorem verifyRestaurantOwner_precedence (catchError : String)
    (jwtVerify : String → Option JValue) (castId : JValue → Option ObjectId) (env : Faults)
    (users : List User) (authorization : Option String) (henv : env.findById = false) :
    ((headerToken authorization = Option.none ∨ headerToken authorization = some "") →
      verifyRestaurantOwner catchError jwtVerify castId env users authorization =
        .rejected 401 noTokenProvided) ∧
    (∀ token, headerToken authorization = some token → token ≠ "" →
      (jwtVerify token = Option.none →
        verifyRestaurantOwner catchError jwtVerify castId env users authorization =
          .rejected 400 catchError) ∧
      (∀ sub id, jwtVerify token = some sub → castId sub = some id →
        (findUserById users id = Option.none →
          verifyRestaurantOwner catchError jwtVerify castId env users authorization =
            .rejected 404 "User not found.") ∧
        (∀ user, findUserById users id = some user →
          (user.role ≠ "restaurant" →
            verifyRestaurantOwner catchError jwtVerify castId env users authorization =
              .rejected 403 ownersOnly) ∧
          (user.role = "restaurant" →
            verifyRestaurantOwner catchError jwtVerify castId env users authorization =
              .next sub)))) ∧
    (∀ ownerId,
      verifyRestaurantOwner catchError jwtVerify castId env users authorization =
        .next ownerId →
      ∃ token id user, headerToken authorization = some token ∧ token ≠ "" ∧
        jwtVerify token = some ownerId ∧ castId ownerId = some id ∧
        findUserById users id = some user ∧ user.role = "restaurant") := by
  refine ⟨?_, ?_, fun ownerId h =>
    verifyRestaurantOwner_next catchError jwtVerify castId env users authorization ownerId h⟩
  · rintro (h | h) <;> simp [verifyRestaurantOwner, h]
  · intro token ht he
    refine ⟨fun hv => by simp [verifyRestaurantOwner, ht, he, hv], ?_⟩
    intro sub id hv hc
    refine ⟨fun hu => by simp [verifyRestaurantOwner, ht, he, hv, hc, henv, hu], ?_⟩
    intro user hu
    exact ⟨fun hr => by simp [verifyRestaurantOwner, ht, he, hv, hc, henv, hu, hr],
      fun hr => by simp [verifyRestaurantOwner, ht, he, hv, hc, henv, hu, hr]⟩

/-- Witness for C13: the token of the customer (user 5) is answered 403, and the token of
the owner (user 9) reaches the handler with `req.ownerId` set to the subject. -/
theorem verifyRestaurantOwner_precedence_witness :
    verifyRestaurantOwner "Invalid token." exampleVerify routeCast Faults.none ownerStore.users
      (some "Bearer tok5") = .rejected 403 ownersOnly ∧
    verifyRestaurantOwner "Invalid token." exampleVerify routeCast Faults.none ownerStore.users
      (some "Bearer tok9") = .next (.str "u9") :=
  have h := (verifyRestaurantOwner_precedence "Invalid token." exampleVerify routeCast
    Faults.none ownerStore.users (some "Bearer tok5") rfl).2.1 "tok5" (by decide) (by decide)
  have h9 := (verifyRestaurantOwner_precedence "Invalid token." exampleVerify routeCast
    Faults.none ownerStore.users (some "Bearer tok9") rfl).2.1 "tok9" (by decide) (by decide)
  ⟨((h.2 (.str "u5") 5 (by decide) (by decide)).2 ⟨5, "customer"⟩ (by decide)).1 (by decide),
    ((h9.2 (.str "u9") 9 (by decide) (by decide)).2 ⟨9, "restaurant"⟩ (by decide)).2 rfl⟩

/-! ## Export: lemmas and the claim -/

theorem mapM_some {α β : Type} (f : α → Option β) (g : α → β) (l : List α)
    (h : ∀ x, x ∈ l → f x = some (g x)) : l.mapM f = some (l.map g) := by
  induction l with
  | nil => rfl
  | cons x xs ih =>
    rw [List.mapM_cons, h x (List.mem_cons_self x xs),
      ih (fun y hy => h y (List.mem_cons_of_mem x hy))]
    rfl

theorem csvRow_resolved (menuItems : List MenuItem) (o : Order)
    (h : itemsResolve menuItems o) :
    csvRow (populateItems menuItems o) =
      some ⟨o._id, o.finalTotal, ", ".intercalate (o.items.map (itemText menuItems))⟩ := by
  have hparts : (populateItems menuItems o).items.mapM itemSummary =
      some (o.items.map (itemText menuItems)) := by
    have := mapM_some itemSummary
      (fun p : PopulatedItem => match p.menuItem with
        | some m => m.name ++ " (x" ++ toString p.quantity ++ ")"
        | Option.none => "")
      (populateItems menuItems o).items (by
        intro p hp
        simp only [populateItems, List.mem_map] at hp
        obtain ⟨item, hitem, rfl⟩ := hp
        obtain ⟨m, hm⟩ := h item hitem
        unfold findMenuItemById at hm
        simp only [itemSummary, hm])
    rw [this]
    simp only [populateItems, List.map_map]
    rfl
  unfold csvRow
  rw [hparts]
  rfl

/-- The export of an owned restaurant when no store call rejects: with format `csv`, when
every item of the restaurant's orders references a menu item of the collection, one row per
order, in order, with the order id, its `finalTotal` and the item texts joined by `", "`;
with format `json`, the populated orders of the restaurant, in order. -/
theorem exportData_owned (castId : JValue → Option ObjectId) (st : Store) (ownerId : ObjectId)
    (restaurantId : JValue) (rid : ObjectId) (r : Restaurant)
    (hcast : castId restaurantId = some rid)
    (hown : findOwnedRestaurant st.restaurants rid ownerId = some r) :
    ((∀ o, o ∈ st.orders → o.restaurant = rid → itemsResolve st.menuItems o) →
      exportData castId Faults.none st ownerId ⟨restaurantId, .str "csv"⟩ =
        .ok 200 (.csv ((st.orders.filter (fun o => decide (o.restaurant = rid))).map
          (fun o => ⟨o._id, o.finalTotal,
            ", ".intercalate (o.items.map (itemText st.menuItems))⟩)))) ∧
    (∃ orders, exportData castId Faults.none st ownerId ⟨restaurantId, .str "json"⟩ =
        .ok 200 (.json orders) ∧
      orders.map (fun o => o.order) =
        st.orders.filter (fun o => decide (o.restaurant = rid))) := by
  constructor
  · intro hres
    have hrows : ((st.orders.filter (fun o => decide (o.restaurant = rid))).map
        (populateItems st.menuItems)).mapM csvRow =
        some ((st.orders.filter (fun o => decide (o.restaurant = rid))).map
          (fun o => ⟨o._id, o.finalTotal,
            ", ".intercalate (o.items.map (itemText st.menuItems))⟩)) := by
      have := mapM_some csvRow
        (fun p : PopulatedOrder => ⟨p.order._id, p.order.finalTotal,
          ", ".intercalate (p.order.items.map (itemText st.menuItems))⟩)
        ((st.orders.filter (fun o => decide (o.restaurant = rid))).map
          (populateItems st.menuItems)) (by
          intro p hp
          obtain ⟨o, ho, rfl⟩ := List.mem_map.1 hp
          rw [List.mem_filter] at ho
          exact csvRow_resolved st.menuItems o (hres o ho.1 (by simpa using ho.2)))
      rw [this, List.map_map]
      rfl
    unfold exportData
    simp only [true_or, if_true, hcast, hown, Faults.none, Bool.false_eq_true, if_false, hrows]
  · refine ⟨(st.orders.filter (fun o => decide (o.restaurant = rid))).map
      (populateItems st.menuItems), ?_, ?_⟩
    · have hne : ("json" = "csv") = False := by decide
      unfold exportData
      simp only [or_true, if_true, hcast, hown, Faults.none, Bool.false_eq_true, if_false, hne]
    · rw [List.map_map]
      exact List.map_id _

/-- A format other than the texts `csv` and `json` is answered 400 whatever the store and
the store calls would do: the check comes before any store access. -/
theorem exportData_invalid_format (castId : JValue → Option ObjectId) (env : Faults)
    (st : Store) (ownerId : ObjectId) (req : ExportRequest)
    (h : req.format ≠ .str "csv" ∧ req.format ≠ .str "json") :
    exportData castId env st ownerId req = .fail 400 invalidFormat := by
  unfold exportData
  cases hf : req.format with
  | str format =>
    have h1 : format ≠ "csv" := fun e => h.1 (by rw [hf, e])
    have h2 : format ≠ "json" := fun e => h.2 (by rw [hf, e])
    simp [h1, h2]
  | undefined => rfl
  | null => rfl
  | bool b => rfl
  | num n => rfl
  | compound => rfl

/-- C12 (code defect): in `exportStore` restaurant 7 is owned by user 9 and one of its two
orders has an item whose menu item is in no document; the json export answers 200 with both
orders, but the csv export reads `name` of the `null` menu item, throws, and answers the
generic 500 error instead of one row per order. -/
theorem exportData_csv_fails_on_missing_menu_item :
    findOwnedRestaurant exportStore.restaurants 7 9 = some exampleRestaurant ∧
    exportStore.orders.filter (fun o => decide (o.restaurant = 7)) =
      [morningOrder, danglingOrder] ∧
    exportData routeCast Faults.none exportStore 9 ⟨.str "r7", .str "json"⟩ =
      .ok 200 (.json [populateItems exportStore.menuItems morningOrder,
        populateItems exportStore.menuItems danglingOrder]) ∧
    exportData routeCast Faults.none exportStore 9 ⟨.str "r7", .str "csv"⟩ =
      .fail 500 "Failed to export data" := by
  refine ⟨by decide, by decide, by decide, by decide⟩

/-! ## Menu items: the claim -/

/-- When the body has no `restaurant` key, a created menu item belongs to the restaurant of
the route, which the caller owns. -/
theorem addMenuItem_without_restaurant_key (castId : JValue → Option ObjectId)
    (castName : JValue → Option String) (env : Faults) (st : Store) (ownerId : ObjectId)
    (restaurantId : String) (body : MenuItemBody) (freshId : ObjectId) (item : MenuItem)
    (hbody : body.restaurant = .undefined)
    (h : (addMenuItem castId castName env st ownerId restaurantId body freshId).1 =
      .ok 201 item) :
    castId (.str restaurantId) = some item.restaurant ∧
    ∃ r, findOwnedRestaurant st.restaurants item.restaurant ownerId = some r := by
  unfold addMenuItem at h
  cases hc : castId (.str restaurantId) with
  | none => simp [hc] at h
  | some id =>
    cases hf : env.findOne with
    | true => simp [hc, hf] at h
    | false =>
      cases ho : findOwnedRestaurant st.restaurants id ownerId with
      | none => simp [hc, hf, ho] at h
      | some r =>
        simp only [hc, hf, ho, hbody, if_true, Bool.false_eq_true, if_false] at h
        cases hn : castName body.name with
        | none => simp [hn] at h
        | some n =>
          cases hs : env.save with
          | true => simp [hn, hs] at h
          | false =>
            simp only [hn, hs, Bool.false_eq_true, if_false] at h
            injection h with _ h2
            subst h2
            exact ⟨rfl, r, ho⟩

/-- C14 (code defect): user 9 owns restaurant 7 and not restaurant 8.  A `POST` to the
menu items of restaurant 7 with a body that carries `restaurant: r8` creates a menu item of
restaurant 8, and a `PUT` on menu item 21 of restaurant 7 with the same key moves it to
restaurant 8: the body's key replaces the restaurant that the ownership check was made on. -/
theorem menuItem_body_overrides_restaurant :
    findOwnedRestaurant ownerStore.restaurants 7 9 = some exampleRestaurant ∧
    findOwnedRestaurant ownerStore.restaurants 8 9 = Option.none ∧
    addMenuItem routeCast exampleName Faults.none ownerStore 9 "r7"
        ⟨.str "r8", .str "Karahi"⟩ 24 =
      (.ok 201 ⟨24, 8, "Karahi"⟩,
        { ownerStore with menuItems := ownerStore.menuItems ++ [⟨24, 8, "Karahi"⟩] }) ∧
    findMenuItemById ownerStore.menuItems 21 = some ⟨21, 7, "Biryani"⟩ ∧
    (updateMenuItem routeCast exampleName exampleIdText Faults.none ownerStore (.str "u9")
        "m21" ⟨.str "r8", .undefined⟩).1 = .ok 200 ⟨21, 8, "Biryani"⟩ ∧
    findMenuItemById (updateMenuItem routeCast exampleName exampleIdText Faults.none ownerStore
        (.str "u9") "m21" ⟨.str "r8", .undefined⟩).2.menuItems 21 =
      some ⟨21, 8, "Biryani"⟩ := by
  refine ⟨by decide, by decide, by decide, by decide, by decide, by decide⟩

/-! ## Restaurants: lemmas and the claim -/

theorem findRestaurantById_id (restaurants : List Restaurant) (id : ObjectId) (r : Restaurant)
    (h : findRestaurantById restaurants id = some r) : r._id = id := by
  have := List.find?_some h
  simpa using this

theorem findRestaurantById_saveRestaurant (r : Restaurant) (restaurants : List Restaurant)
    (found : Restaurant) (h : findRestaurantById restaurants r._id = some found) :
    findRestaurantById (saveRestaurant r restaurants) r._id = some r := by
  induction restaurants with
  | nil => simp [findRestaurantById] at h
  | cons x xs ih =>
    unfold saveRestaurant
    by_cases hx : x._id = r._id
    · simp [hx, findRestaurantById]
    · simp only [hx, if_false]
      simp only [findRestaurantById, List.find?_cons, hx, decide_False] at h ⊢
      exact ih h

theorem findRestaurantById_saveRestaurant_ne (r : Restaurant) (restaurants : List Restaurant)
    (id : ObjectId) (h : r._id ≠ id) :
    findRestaurantById (saveRestaurant r restaurants) id = findRestaurantById restaurants id := by
  induction restaurants with
  | nil => rfl
  | cons x xs ih =>
    unfold saveRestaurant
    by_cases hx : x._id = r._id
    · have hxid : x._id ≠ id := by rw [hx]; exact h
      simp [hx, findRestaurantById, h, hxid]
    · simp only [hx, if_false]
      simp only [findRestaurantById, List.find?_cons] at ih ⊢
      rw [ih]

theorem findRestaurantById_delete_ne (restaurants : List Restaurant) (id other : ObjectId)
    (h : other ≠ id) :
    findRestaurantById (deleteRestaurantById id restaurants) other =
      findRestaurantById restaurants other := by
  induction restaurants with
  | nil => rfl
  | cons x xs ih =>
    unfold deleteRestaurantById
    by_cases hx : x._id = id
    · have hio : ¬ id = other := fun e => h e.symm
      simp [hx, findRestaurantById, hio, List.find?_cons]
    · simp only [hx, if_false]
      simp only [findRestaurantById, List.find?_cons] at ih ⊢
      rw [ih]

/-- The run of `updateRestaurant` once the route parameter casts and the lookup resolves. -/
theorem updateRestaurant_run (castId : JValue → Option ObjectId) (idText : ObjectId → String)
    (env : Faults) (st : Store) (ownerId : JValue) (restaurantId : String)
    (body : RestaurantBody) (id : ObjectId)
    (hcast : castId (.str restaurantId) = some id) (henv : env.findById = false) :
    updateRestaurant castId idText env st ownerId restaurantId body =
      match findRestaurantById st.restaurants id with
      | Option.none => (.fail 404 "Restaurant not found", st)
      | some restaurant =>
        if JValue.str (idText restaurant.owner) ≠ ownerId then
          (.fail 403 "You do not own this restaurant", st)
        else if env.save then (.fail 500 "Failed to update restaurant", st)
        else
          (.ok 200 (assignRestaurant restaurant body),
            { st with
              restaurants :=
                saveRestaurant (assignRestaurant restaurant body) st.restaurants }) := by
  unfold updateRestaurant
  simp only [hcast, henv, Bool.false_eq_true, if_false]

/-- The run of `deleteRestaurant` once the route parameter casts and the lookup resolves. -/
theorem deleteRestaurant_run (castId : JValue → Option ObjectId) (idText : ObjectId → String)
    (env : Faults) (st : Store) (ownerId : JValue) (restaurantId : String) (id : ObjectId)
    (hcast : castId (.str restaurantId) = some id) (henv : env.findById = false) :
    deleteRestaurant castId idText env st ownerId restaurantId =
      match findRestaurantById st.restaurants id with
      | Option.none => (.fail 404 "Restaurant not found", st)
      | some restaurant =>
        if JValue.str (idText restaurant.owner) ≠ ownerId then
          (.fail 403 "You do not own this restaurant", st)
        else if env.deleteOne then (.fail 500 "Failed to delete restaurant", st)
        else
          (.ok 200 "Restaurant deleted successfully",
            { st with restaurants := deleteRestaurantById id st.restaurants }) := by
  unfold deleteRestaurant
  simp only [hcast, henv, Bool.false_eq_true, if_false]

/-- `updateRestaurant` changes the store only for an existing restaurant whose owner's id,
as text, is the caller's id. -/
theorem updateRestaurant_changes_only_owned (castId : JValue → Option ObjectId)
    (idText : ObjectId → String) (env : Faults) (st : Store) (ownerId : JValue)
    (restaurantId : String) (body : RestaurantBody)
    (h : (updateRestaurant castId idText env st ownerId restaurantId body).2 ≠ st) :
    ∃ id r, castId (.str restaurantId) = some id ∧
      findRestaurantById st.restaurants id = some r ∧ ownerId = .str (idText r.owner) := by
  cases hcast : castId (.str restaurantId) with
  | none => exact absurd (by simp [updateRestaurant, hcast]) h
  | some id =>
    cases henv : env.findById with
    | true => exact absurd (by simp [updateRestaurant, hcast, henv]) h
    | false =>
      rw [updateRestaurant_run castId idText env st ownerId restaurantId body id hcast henv] at h
      cases hf : findRestaurantById st.restaurants id with
      | none => rw [hf] at h; exact absurd rfl h
      | some r =>
        rw [hf] at h
        by_cases ho : JValue.str (idText r.owner) = ownerId
        · exact ⟨id, r, rfl, hf, ho.symm⟩
        · dsimp only at h
          rw [if_pos ho] at h
          exact absurd rfl h

/-- `deleteRestaurant` changes the store only for an existing restaurant whose owner's id,
as text, is the caller's id. -/
theorem deleteRestaurant_changes_only_owned (castId : JValue → Option ObjectId)
    (idText : ObjectId → String) (env : Faults) (st : Store) (ownerId : JValue)
    (restaurantId : String)
    (h : (deleteRestaurant castId idText env st ownerId restaurantId).2 ≠ st) :
    ∃ id r, castId (.str restaurantId) = some id ∧
      findRestaurantById st.restaurants id = some r ∧ ownerId = .str (idText r.owner) := by
  cases hcast : castId (.str restaurantId) with
  | none => exact absurd (by simp [deleteRestaurant, hcast]) h
  | some id =>
    cases henv : env.findById with
    | true => exact absurd (by simp [deleteRestaurant, hcast, henv]) h
    | false =>
      rw [deleteRestaurant_run castId idText env st ownerId restaurantId id hcast henv] at h
      cases hf : findRestaurantById st.restaurants id with
      | none => rw [hf] at h; exact absurd rfl h
      | some r =>
        rw [hf] at h
        by_cases ho : JValue.str (idText r.owner) = ownerId
        · exact ⟨id, r, rfl, hf, ho.symm⟩
        · dsimp only at h
          rw [if_pos ho] at h
          exact absurd rfl h

/-- C15 (code defect): user 9 updates the own restaurant 7 with a body that supplies the
rating 0, an empty description, a new name and `isActive` false.  The update answers 200;
the name and `isActive` take the body's values, but the supplied rating 0 and the supplied
empty description are dropped by `value || restaurant.field` and the previous values stay,
unlike `isActive`, which the same handler tests with `!== undefined`. -/
theorem updateRestaurant_keeps_previous_on_falsy :
    falsyBody.rating = .num 0 ∧ falsyBody.description = .str "" ∧
    exampleRestaurant.rating = .num 4 ∧
    exampleRestaurant.description = .str "Grill and biryani" ∧
    (updateRestaurant routeCast exampleIdText Faults.none ownerStore (.str "u9") "r7"
        falsyBody).1 =
      .ok 200 { exampleRestaurant with name := .str "Grill House", isActive := .bool false } := by
  refine ⟨rfl, rfl, rfl, rfl, by decide⟩

/-- The frame of the restaurant update and delete handlers.  They change the store only if
the restaurant exists and its owner's id is the caller's id.  With a route parameter that
casts and a lookup that resolves, a missing restaurant is answered 404 and one of another
owner 403, with the store unchanged.  On a successful update the restaurant keeps its id and
its owner, every other restaurant is unchanged, `isActive` is assigned with
`!== undefined`, and each other updatable field is assigned with `value || previous`. -/
theorem restaurant_update_delete_frame (castId : JValue → Option ObjectId)
    (idText : ObjectId → String) (env : Faults) (st : Store) (ownerId : JValue)
    (restaurantId : String) (body : RestaurantBody) :
    ((updateRestaurant castId idText env st ownerId restaurantId body).2 ≠ st →
      ∃ id r, castId (.str restaurantId) = some id ∧
        findRestaurantById st.restaurants id = some r ∧ ownerId = .str (idText r.owner)) ∧
    ((deleteRestaurant castId idText env st ownerId restaurantId).2 ≠ st →
      ∃ id r, castId (.str restaurantId) = some id ∧
        findRestaurantById st.restaurants id = some r ∧ ownerId = .str (idText r.owner)) ∧
    (∀ id, castId (.str restaurantId) = some id → env.findById = false →
      (findRestaurantById st.restaurants id = Option.none →
        updateRestaurant castId idText env st ownerId restaurantId body =
          (.fail 404 "Restaurant not found", st) ∧
        deleteRestaurant castId idText env st ownerId restaurantId =
          (.fail 404 "Restaurant not found", st)) ∧
      (∀ r, findRestaurantById st.restaurants id = some r →
        (ownerId ≠ .str (idText r.owner) →
          updateRestaurant castId idText env st ownerId restaurantId body =
            (.fail 403 "You do not own this restaurant", st) ∧
          deleteRestaurant castId idText env st ownerId restaurantId =
            (.fail 403 "You do not own this restaurant", st)) ∧
        (ownerId = .str (idText r.owner) → env.deleteOne = false →
          deleteRestaurant castId idText env st ownerId restaurantId =
            (.ok 200 "Restaurant deleted successfully",
              { st with restaurants := deleteRestaurantById id st.restaurants }) ∧
          ∀ other, other ≠ id →
            findRestaurantById (deleteRestaurantById id st.restaurants) other =
              findRestaurantById st.restaurants other) ∧
        (ownerId = .str (idText r.owner) → env.save = false →
          ∃ updated,
            updateRestaurant castId idText env st ownerId restaurantId body =
              (.ok 200 updated,
                { st with restaurants := saveRestaurant updated st.restaurants }) ∧
            findRestaurantById (saveRestaurant updated st.restaurants) id = some updated ∧
            (∀ other, other ≠ id →
              findRestaurantById (saveRestaurant updated st.restaurants) other =
                findRestaurantById st.restaurants other) ∧
            updated._id = r._id ∧ updated.owner = r.owner ∧
            updated.isActive =
              (if body.isActive = .undefined then r.isActive else body.isActive) ∧
            updated.name = (if body.name.truthy then body.name else r.name) ∧
            updated.description =
              (if body.description.truthy then body.description else r.description) ∧
            updated.cuisine = (if body.cuisine.truthy then body.cuisine else r.cuisine) ∧
            updated.address = (if body.address.truthy then body.address else r.address) ∧
            updated.contactNumber =
              (if body.contactNumber.truthy then body.contactNumber else r.contactNumber) ∧
            updated.email = (if body.email.truthy then body.email else r.email) ∧
            updated.operatingHours =
              (if body.operatingHours.truthy then body.operatingHours
                else r.operatingHours) ∧
            updated.rating = (if body.rating.truthy then body.rating else r.rating) ∧
            updated.profilePicture =
              (if body.profilePicture.truthy then body.profilePicture
                else r.profilePicture) ∧
            updated.coverImage =
              (if body.coverImage.truthy then body.coverImage else r.coverImage)))) := by
  refine ⟨updateRestaurant_changes_only_owned castId idText env st ownerId restaurantId body,
    deleteRestaurant_changes_only_owned castId idText env st ownerId restaurantId, ?_⟩
  intro id hcast henv
  have hu := updateRestaurant_run castId idText env st ownerId restaurantId body id hcast henv
  have hd := deleteRestaurant_run castId idText env st ownerId restaurantId id hcast henv
  refine ⟨fun hnone => ?_, fun r hr => ⟨fun hne => ?_, fun ho hdel => ?_, fun ho hsave => ?_⟩⟩
  · rw [hu, hd, hnone]; exact ⟨rfl, rfl⟩
  · have hne2 : JValue.str (idText r.owner) ≠ ownerId := fun e => hne e.symm
    rw [hu, hd, hr]
    dsimp only
    rw [if_pos hne2, if_pos hne2]
    exact ⟨rfl, rfl⟩
  · have hno : ¬ JValue.str (idText r.owner) ≠ ownerId := fun e => e ho.symm
    rw [hd, hr]
    dsimp only
    rw [if_neg hno, hdel]
    exact ⟨rfl, fun other hother => findRestaurantById_delete_ne st.restaurants id other hother⟩
  · have hno : ¬ JValue.str (idText r.owner) ≠ ownerId := fun e => e ho.symm
    have hid : r._id = id := findRestaurantById_id st.restaurants id r hr
    have hid2 : (assignRestaurant r body)._id = id := hid
    refine ⟨assignRestaurant r body, ?_, ?_, ?_, rfl, rfl, ?_, rfl, rfl, rfl, rfl, rfl, rfl,
      rfl, rfl, rfl, rfl⟩
    · rw [hu, hr]
      dsimp only
      rw [if_neg hno, hsave]
      rfl
    · have := findRestaurantById_saveRestaurant (assignRestaurant r body) st.restaurants r
        (by rw [hid2]; exact hr)
      rw [hid2] at this
      exact this
    · intro other hother
      exact findRestaurantById_saveRestaurant_ne _ _ _ (by rw [hid2]; exact fun e => hother e.symm)
    · show (if body.isActive ≠ .undefined then body.isActive else r.isActive) = _
      by_cases hb : body.isActive = .undefined <;> simp [hb]

/-- The frame on the example store: user 9 updates the own restaurant 7, and user 9 is
refused on restaurant 8 of user 4. -/
theorem restaurant_update_delete_frame_witness :
    (∃ updated,
      updateRestaurant routeCast exampleIdText Faults.none ownerStore (.str "u9") "r7"
          falsyBody =
        (.ok 200 updated,
          { ownerStore with restaurants := saveRestaurant updated ownerStore.restaurants }) ∧
      updated._id = 7 ∧ updated.owner = 9 ∧ updated.isActive = .bool false ∧
      updated.name = .str "Grill House" ∧ updated.rating = .num 4) ∧
    updateRestaurant routeCast exampleIdText Faults.none ownerStore (.str "u9") "r8"
        falsyBody = (.fail 403 "You do not own this restaurant", ownerStore) ∧
    deleteRestaurant routeCast exampleIdText Faults.none ownerStore (.str "u9") "r8" =
      (.fail 403 "You do not own this restaurant", ownerStore) := by
  have h7 := ((restaurant_update_delete_frame routeCast exampleIdText Faults.none ownerStore
    (.str "u9") "r7" falsyBody).2.2 7 (by decide) rfl).2 exampleRestaurant (by decide)
  have h8 := ((restaurant_update_delete_frame routeCast exampleIdText Faults.none ownerStore
    (.str "u9") "r8" falsyBody).2.2 8 (by decide) rfl).2 otherRestaurant (by decide)
  obtain ⟨updated, hrun, _, _, hid, hown, hact, hname, _, _, _, _, _, _, hrating, _, _⟩ :=
    h7.2.2 (by decide) rfl
  exact ⟨⟨updated, hrun, hid, hown, hact, hname, hrating⟩, h8.1 (by decide)⟩

end RestaurantBackend
